import Mathlib

/-!
# KDocker: the tray item manager

A shallow embedding of `src/trayitemmanager.cpp` (class `TrayItemManager`):
the X11 event filter `handleXcbEvent`, the command entry point
`processCommand` with `userSelectWindow`, and the registry operations
`dockWindow`, `remove`, `undock`, `undockAll`, `checkCount`, `dockedWindows`,
`isWindowDocked`; then theorems on event routing, the grab record, duplicate
docking, the one-entry-per-window invariant, termination requests, command
resolution and pattern compilation.

Modelling conventions.

* The manager object is a record `TrayItemManager`; every member function is a
  function from the record (and its arguments) to the record afterwards.
* The function-local `static xcb_window_t dockedWindow` of `handleXcbEvent`
  has static storage duration, so it is part of the state: field
  `dockedWindow`.
* Calls that leave the class (Qt, Xlib, the `TrayItem` wrapper, the
  `Scanner`, `free`) are appended, in program order, to the field `trace`.
  Entry into `checkCount` and `dockWindow` is recorded as well, so that
  "performs a termination check" and "attempts a dock" can be counted.
  What the collaborators do in response (signals they emit later, nested
  event loops) is outside this file.
* `TrayItem *` values are records carrying the address (`ptr`) and the window
  id the wrapper was constructed with; `QList::removeAll` compares addresses;
  `new TrayItem` takes the next unused address (`heapNext`).
* What libc, Qt and `XLibUtil` return to `processCommand` is a parameter
  (`Env`). The `Scanner` (scanner.cpp is not among the sources) and the Qt
  pattern functions are modelled separately and marked as such.
* Machine integers are `Nat`/`Int` with explicit reduction where the width
  matters (`uint8_t response_type`, 32-bit `xcb_window_t`, `int`, `pid_t`).
-/

namespace KDocker

/-! ## Data model -/

/-- Xlib `Window` (an `unsigned long` XID). -/
abbrev Window := Nat

/-- The value `NOARG` used by the constructor to unset every `opt[..]`. -/
def NOARG : Int := -1

/-- The struct `TrayItemArgs`: the per-window docking configuration. The array
`opt[Option_MAX]` is given as one field per index used by `processCommand`;
`true` is 1 and `false` is 0. -/
structure TrayItemArgs where
  sCustomIcon : String
  sAttentionIcon : String
  iBalloonTimeout : Int
  optSkipTaskbar : Int
  optSkipPager : Int
  optSticky : Int
  optIconifyMinimized : Int
  optIconifyObscured : Int
  optIconifyFocusLost : Int
  deriving DecidableEq, Repr

/-- A `TrayItem *`: the address of the wrapper and the window it was
constructed with (`TrayItem::dockedWindow()`). -/
structure TrayItem where
  ptr : Nat
  window : Window
  settings : TrayItemArgs
  deriving DecidableEq, Repr

/-- Accessor `TrayItem::dockedWindow()`. -/
def TrayItem.dockedWindow (t : TrayItem) : Window := t.window

/-- The part of `GrabInfo` (`m_grabInfo`) that `handleXcbEvent` reads and
writes. -/
structure GrabInfo where
  isGrabbing : Bool
  button : Nat
  window : Window
  deriving DecidableEq, Repr

/-- An `xcb_generic_event_t *` as the handler sees it: the response type
byte, the byte at offset 1 (`detail`), and the 32-bit words at offsets 4, 8
and 16, which are the only parts any of the casts in `handleXcbEvent` read. -/
structure xcb_generic_event_t where
  response_type : Nat
  detail : Nat
  word4 : Nat
  word8 : Nat
  word16 : Nat
  deriving DecidableEq, Repr

/-! Event codes of `xcb/xproto.h`. -/

def XCB_KEY_RELEASE : Nat := 3
def XCB_BUTTON_PRESS : Nat := 4
def XCB_FOCUS_OUT : Nat := 10
def XCB_VISIBILITY_NOTIFY : Nat := 15
def XCB_DESTROY_NOTIFY : Nat := 17
def XCB_UNMAP_NOTIFY : Nat := 18
def XCB_MAP_NOTIFY : Nat := 19
def XCB_PROPERTY_NOTIFY : Nat := 28

/-- The macro `ESC_key` of the source file. -/
def ESC_key : Nat := 9

/-! Field reads through the casts of `handleXcbEvent`, by the layouts of
`xcb/xproto.h`. -/

/-- Field `xcb_focus_out_event_t::event` (offset 4). -/
def xcb_focus_out_event_t.event (e : xcb_generic_event_t) : Nat := e.word4 % 2 ^ 32
/-- Field `xcb_destroy_notify_event_t::window` (offset 8). -/
def xcb_destroy_notify_event_t.window (e : xcb_generic_event_t) : Nat := e.word8 % 2 ^ 32
/-- Field `xcb_unmap_notify_event_t::window` (offset 8). -/
def xcb_unmap_notify_event_t.window (e : xcb_generic_event_t) : Nat := e.word8 % 2 ^ 32
/-- Field `xcb_map_notify_event_t::window` (offset 8). -/
def xcb_map_notify_event_t.window (e : xcb_generic_event_t) : Nat := e.word8 % 2 ^ 32
/-- Field `xcb_visibility_notify_event_t::window` (offset 4). -/
def xcb_visibility_notify_event_t.window (e : xcb_generic_event_t) : Nat := e.word4 % 2 ^ 32
/-- Field `xcb_property_notify_event_t::window` (offset 4). -/
def xcb_property_notify_event_t.window (e : xcb_generic_event_t) : Nat := e.word4 % 2 ^ 32
/-- Field `xcb_button_press_event_t::detail` (offset 1, one byte). -/
def xcb_button_press_event_t.detail (e : xcb_generic_event_t) : Nat := e.detail % 2 ^ 8
/-- Field `xcb_button_press_event_t::child` (offset 16). -/
def xcb_button_press_event_t.child (e : xcb_generic_event_t) : Nat := e.word16 % 2 ^ 32
/-- Field `xcb_key_release_event_t::detail` (offset 1, one byte). -/
def xcb_key_release_event_t.detail (e : xcb_generic_event_t) : Nat := e.detail % 2 ^ 8

/-- The flags `QRegularExpression::PatternOptions`, as far as `processCommand` uses it. -/
inductive PatternOptions where
  | NoPatternOption
  | CaseInsensitiveOption
  deriving DecidableEq, Repr

/-- A `QRegularExpression` value: pattern text and options. -/
structure QRegularExpression where
  pattern : String
  patternOptions : PatternOptions
  deriving DecidableEq, Repr

/-- One call `Scanner::enqueue(command, arguments, settings, maxTime,
checkNormality, windowName)`, which is also the queue entry it makes. -/
structure ScanRequest where
  command : String
  arguments : List String
  settings : TrayItemArgs
  maxTime : Int
  checkNormality : Bool
  windowName : QRegularExpression
  deriving DecidableEq, Repr

/-- Calls that leave the manager, and the two entry markers. -/
inductive Effect where
  | xcbEventFilter (t : TrayItem) (event : xcb_generic_event_t) (dockedWindow : Nat)
  | quitMouseGrab
  | free (event : xcb_generic_event_t)
  | quit
  | messageBox (text : String)
  | stdout (text : String)
  | newTrayItem (t : TrayItem)
  | showWindow (t : TrayItem)
  | restoreWindow (t : TrayItem)
  | setSkipTaskbar (t : TrayItem) (value : Bool)
  | doSkipTaskbar (t : TrayItem)
  | deleteLater (t : TrayItem)
  | enqueue (r : ScanRequest)
  | enterCheckCount
  | enterDockWindow (window : Window)
  deriving DecidableEq, Repr

/-- Modelled from the spec: the `Scanner` (scanner.cpp is not among the
sources). Its state is the ordered queue of pending requests. -/
structure Scanner where
  m_processes : List ScanRequest
  deriving DecidableEq, Repr

/-- Modelled from the spec: `Scanner::isRunning()` is true iff the queue is
non-empty. -/
def Scanner.isRunning (s : Scanner) : Bool := !s.m_processes.isEmpty

/-- Modelled from the spec: `Scanner::enqueue` appends the request to the
ordered queue and returns. -/
def Scanner.enqueue (s : Scanner) (r : ScanRequest) : Scanner :=
  { s with m_processes := s.m_processes ++ [r] }

/-- The state of a `TrayItemManager`, with the function-local static of
`handleXcbEvent`, the next address `new TrayItem` returns, and the trace. -/
structure TrayItemManager where
  m_trayItems : List TrayItem
  m_grabInfo : GrabInfo
  m_scanner : Scanner
  m_initArgs : TrayItemArgs
  dockedWindow : Nat
  heapNext : Nat
  trace : List Effect
  deriving DecidableEq, Repr

/-- Append one external call to the trace. -/
def TrayItemManager.emit (m : TrayItemManager) (e : Effect) : TrayItemManager :=
  { m with trace := m.trace ++ [e] }

/-! ## The X11 event filter -/

/-- The switch subject `response_type & ~0x80` of `handleXcbEvent`, with
`response_type` a `uint8_t` promoted to `int`. -/
def eventType (event : xcb_generic_event_t) : Nat :=
  Nat.land (event.response_type % 2 ^ 8) 0xFFFFFF7F

/-- The `switch` of `handleXcbEvent`: the six window-bearing cases assign the
static `dockedWindow`; button-press and key-release act on the grab; there is
no `default`. -/
def handleXcbEvent.classify (m : TrayItemManager) (event : xcb_generic_event_t) :
    TrayItemManager :=
  let ty := eventType event
  if ty = XCB_FOCUS_OUT then
    { m with dockedWindow := xcb_focus_out_event_t.event event }
  else if ty = XCB_DESTROY_NOTIFY then
    { m with dockedWindow := xcb_destroy_notify_event_t.window event }
  else if ty = XCB_UNMAP_NOTIFY then
    { m with dockedWindow := xcb_unmap_notify_event_t.window event }
  else if ty = XCB_MAP_NOTIFY then
    { m with dockedWindow := xcb_map_notify_event_t.window event }
  else if ty = XCB_VISIBILITY_NOTIFY then
    { m with dockedWindow := xcb_visibility_notify_event_t.window event }
  else if ty = XCB_PROPERTY_NOTIFY then
    { m with dockedWindow := xcb_visibility_notify_event_t.window event }
  else if ty = XCB_BUTTON_PRESS then
    if m.m_grabInfo.isGrabbing then
      ({ m with m_grabInfo :=
          { isGrabbing := false
            button := xcb_button_press_event_t.detail event
            window := xcb_button_press_event_t.child event } }).emit Effect.quitMouseGrab
    else m
  else if ty = XCB_KEY_RELEASE then
    if m.m_grabInfo.isGrabbing then
      if xcb_key_release_event_t.detail event = ESC_key then
        ({ m with m_grabInfo := { m.m_grabInfo with isGrabbing := false } }).emit
          Effect.quitMouseGrab
      else m
    else m
  else m

/-- The `while (ti.hasNext())` loop of `handleXcbEvent` over the
`QListIterator`, which iterates a copy of `m_trayItems` taken when it is
constructed. -/
def handleXcbEvent.forward (event : xcb_generic_event_t) :
    List TrayItem → TrayItemManager → TrayItemManager
  | [], m => m
  | t :: ti, m =>
    if t.dockedWindow = m.dockedWindow then
      handleXcbEvent.forward event ti (m.emit (Effect.xcbEventFilter t event m.dockedWindow))
    else
      handleXcbEvent.forward event ti m

/-- The slot `TrayItemManager::handleXcbEvent(void *event)`: the switch, the
forwarding loop when the static `dockedWindow` is non-zero, then `free`. -/
def handleXcbEvent (m : TrayItemManager) (event : xcb_generic_event_t) : TrayItemManager :=
  let m1 := handleXcbEvent.classify m event
  let m2 := if m1.dockedWindow ≠ 0 then handleXcbEvent.forward event m1.m_trayItems m1 else m1
  m2.emit (Effect.free event)

/-! ## Registry operations -/

/-- The slot `TrayItemManager::checkCount()`. -/
def checkCount (m : TrayItemManager) : TrayItemManager :=
  let m := m.emit Effect.enterCheckCount
  if m.m_trayItems.isEmpty && !m.m_scanner.isRunning then m.emit Effect.quit else m

/-- The function `TrayItemManager::dockedWindows()`. -/
def dockedWindows (m : TrayItemManager) : List Window :=
  m.m_trayItems.map TrayItem.dockedWindow

/-- The function `TrayItemManager::isWindowDocked(Window)`. -/
def isWindowDocked (m : TrayItemManager) (window : Window) : Bool :=
  (dockedWindows m).contains window

/-- The slot `TrayItemManager::dockWindow(Window, const TrayItemArgs)`. The `connect`
calls wire signals of the new item and have no effect of their own. -/
def dockWindow (m : TrayItemManager) (window : Window) (settings : TrayItemArgs) :
    TrayItemManager :=
  let m := m.emit (Effect.enterDockWindow window)
  if isWindowDocked m window then
    checkCount (m.emit (Effect.messageBox
      "This window is already docked.\nClick on system tray icon to toggle docking."))
  else
    let ti : TrayItem := { ptr := m.heapNext, window := window, settings := settings }
    let m := { m with heapNext := m.heapNext + 1 }
    let m := m.emit (Effect.newTrayItem ti)
    let m := m.emit (Effect.showWindow ti)
    { m with m_trayItems := m.m_trayItems ++ [ti] }

/-- The slot `TrayItemManager::remove(TrayItem *)`; `removeAll` drops every element
equal to the pointer. -/
def remove (m : TrayItemManager) (trayItem : TrayItem) : TrayItemManager :=
  let m := { m with m_trayItems := m.m_trayItems.filter (fun t => t.ptr ≠ trayItem.ptr) }
  let m := m.emit (Effect.deleteLater trayItem)
  checkCount m

/-- The slot `TrayItemManager::undock(TrayItem *)`. -/
def undock (m : TrayItemManager) (trayItem : TrayItem) : TrayItemManager :=
  let m := m.emit (Effect.restoreWindow trayItem)
  let m := m.emit (Effect.setSkipTaskbar trayItem false)
  let m := m.emit (Effect.doSkipTaskbar trayItem)
  remove m trayItem

/-- The slot `TrayItemManager::undockAll()`; `Q_FOREACH` iterates a copy of the
container taken on entry. -/
def undockAll (m : TrayItemManager) : TrayItemManager :=
  m.m_trayItems.foldl undock m

/-! ## The command entry point -/

/-- The local `enum PatternType` of `processCommand`. -/
inductive PatternType where
  | Normal
  | Regex
  | Wildcard
  deriving DecidableEq, Repr

/-- What the calls of `processCommand` and `userSelectWindow` into libc, Qt
and `XLibUtil` return. `getopt` stands for the whole `while (getopt(..))`
scan of the argument vector: the options it yields in order, each with its
`optarg`, and the arguments left from `optind` on. `selectWindow` also hands
back the grab record it was given by reference. `warningAbort` is whether
the user answers the "not a normal window" dialog with Abort. -/
structure Env where
  getopt : List String → List (Char × String) × List String
  atoi : String → Int
  atol : String → Int
  toInt : String → Int
  activeWindow : Window
  isValidWindowId : Window → Bool
  pidToWid : Bool → Int → List Window → Window
  selectWindow : GrabInfo → Window × String × GrabInfo
  isNormalWindow : Window → Bool
  warningAbort : Bool
  escape : String → String
  wildcardToRegularExpression : String → String

/-- Reduction of a value to the range of a 32-bit `int` (two's complement). -/
def wrapInt32 (x : Int) : Int := (x + 2 ^ 31) % 2 ^ 32 - 2 ^ 31

/-- The local variables of `processCommand` that the option loop assigns. -/
structure Locals where
  pid : Int
  window : Window
  checkNormality : Bool
  maxTime : Int
  windowNamePattern : String
  patType : PatternType
  patternOptions : PatternOptions
  settings : TrayItemArgs
  deriving DecidableEq, Repr

/-- The initial values of the locals of `processCommand`. -/
def processCommand.locals (m : TrayItemManager) : Locals :=
  { pid := 0
    window := 0
    checkNormality := true
    maxTime := 5
    windowNamePattern := ""
    patType := PatternType.Normal
    patternOptions := PatternOptions.CaseInsensitiveOption
    settings := m.m_initArgs }

/-- One pass through `switch (option)`: either the function returns (left,
the manager afterwards) or the loop goes on with updated locals (right). -/
def processCommand.option (env : Env) (m : TrayItemManager) (l : Locals)
    (option : Char) (optarg : String) : TrayItemManager ⊕ Locals :=
  if option = '?' then
    Sum.inl (checkCount m)
  else if option = 'b' then
    Sum.inr { l with checkNormality := false }
  else if option = 'd' then
    Sum.inr { l with maxTime := env.atoi optarg }
  else if option = 'e' then
    if optarg = "n" then
      Sum.inr { l with patType := PatternType.Normal }
    else if optarg = "r" then
      Sum.inr { l with patType := PatternType.Regex }
    else if optarg = "w" then
      Sum.inr { l with patType := PatternType.Wildcard }
    else
      Sum.inl (checkCount (m.emit (Effect.messageBox
        ("Invalid name matting option: " ++ optarg ++ ".\n\nChoices are: n, r, w."))))
  else if option = 'f' then
    let window := env.activeWindow
    if window = 0 then
      Sum.inl (checkCount (m.emit (Effect.messageBox
        "Cannot dock the active window because no window has focus.")))
    else
      Sum.inr { l with window := window }
  else if option = 'i' then
    Sum.inr { l with settings := { l.settings with sCustomIcon := optarg } }
  else if option = 'I' then
    Sum.inr { l with settings := { l.settings with sAttentionIcon := optarg } }
  else if option = 'j' then
    Sum.inr { l with patternOptions := PatternOptions.NoPatternOption }
  else if option = 'l' then
    Sum.inr { l with settings := { l.settings with optIconifyFocusLost := 1 } }
  else if option = 'm' then
    Sum.inr { l with settings := { l.settings with optIconifyMinimized := 0 } }
  else if option = 'n' then
    Sum.inr { l with windowNamePattern := optarg }
  else if option = 'o' then
    Sum.inr { l with settings := { l.settings with optIconifyObscured := 1 } }
  else if option = 'p' then
    Sum.inr { l with settings :=
      { l.settings with iBalloonTimeout := wrapInt32 (env.atoi optarg * 1000) } }
  else if option = 'q' then
    Sum.inr { l with settings := { l.settings with iBalloonTimeout := 0 } }
  else if option = 'r' then
    Sum.inr { l with settings := { l.settings with optSkipPager := 1 } }
  else if option = 's' then
    Sum.inr { l with settings := { l.settings with optSticky := 1 } }
  else if option = 't' then
    Sum.inr { l with settings := { l.settings with optSkipTaskbar := 1 } }
  else if option = 'w' then
    let window : Window := (env.toInt optarg % 2 ^ 64).toNat
    if !env.isValidWindowId window then
      Sum.inl (checkCount (m.emit (Effect.messageBox "Invalid window id.")))
    else
      Sum.inr { l with window := window }
  else if option = 'x' then
    Sum.inr { l with pid := wrapInt32 (env.atol optarg) }
  else
    Sum.inr l

/-- The `while ((option = getopt(..)) != -1)` loop. -/
def processCommand.options (env : Env) (m : TrayItemManager) :
    Locals → List (Char × String) → TrayItemManager ⊕ Locals
  | l, [] => Sum.inr l
  | l, (option, optarg) :: rest =>
    match processCommand.option env m l option optarg with
    | Sum.inl m' => Sum.inl m'
    | Sum.inr l' => processCommand.options env m l' rest

/-- The function `TrayItemManager::userSelectWindow(bool checkNormality)`: the manager
afterwards and the returned window. -/
def userSelectWindow (env : Env) (m : TrayItemManager) (checkNormality : Bool) :
    TrayItemManager × Window :=
  let m := m.emit (Effect.stdout
    "Select the application/window to dock with the left mouse button.")
  let m := m.emit (Effect.stdout "Click any other mouse button to abort.")
  let selected := env.selectWindow m.m_grabInfo
  let window := selected.1
  let error := selected.2.1
  let m := { m with m_grabInfo := selected.2.2 }
  if window = 0 then
    let m := if error ≠ "" then m.emit (Effect.messageBox error) else m
    (checkCount m, 0)
  else if checkNormality && !env.isNormalWindow window then
    let m := m.emit (Effect.messageBox
      "The window you are attempting to dock does not seem to be a normal window.")
    if env.warningAbort then (checkCount m, 0) else (m, window)
  else
    (m, window)

/-- The `QRegularExpression windowName` that `processCommand` builds:
`switch (patType)` sets the pattern, then `setPatternOptions`. -/
def processCommand.windowName (env : Env) (l : Locals) : QRegularExpression :=
  { pattern :=
      match l.patType with
      | PatternType.Normal => env.escape l.windowNamePattern
      | PatternType.Regex => l.windowNamePattern
      | PatternType.Wildcard => env.wildcardToRegularExpression l.windowNamePattern
    patternOptions := l.patternOptions }

/-- The arguments of the call `m_scanner->enqueue(command, arguments,
settings, maxTime, checkNormality, windowName)` in `processCommand`; the
command is `argv[optind]` when there is one and empty otherwise. -/
def processCommand.request (env : Env) (l : Locals) (rest : List String) : ScanRequest :=
  { command := rest.headD ""
    arguments := rest.tail
    settings := l.settings
    maxTime := l.maxTime
    checkNormality := l.checkNormality
    windowName := processCommand.windowName env l }

/-- The block `if (!window) { .. }` of `processCommand`: the manager
afterwards and the value of `window`. -/
def processCommand.find (env : Env) (m : TrayItemManager) (l : Locals) :
    TrayItemManager × Window :=
  if l.window = 0 then
    if l.pid ≠ 0 then
      (m, env.pidToWid l.checkNormality l.pid (dockedWindows m))
    else
      userSelectWindow env m l.checkNormality
  else (m, l.window)

/-- The part of `processCommand` after the option loop. -/
def processCommand.resolve (env : Env) (m : TrayItemManager) (l : Locals)
    (rest : List String) : TrayItemManager :=
  if rest ≠ [] ∨ l.windowNamePattern ≠ "" then
    let r := processCommand.request env l rest
    let m := { m.emit (Effect.enqueue r) with m_scanner := m.m_scanner.enqueue r }
    checkCount m
  else
    let found := processCommand.find env m l
    let m := found.1
    let window := found.2
    if window ≠ 0 then
      dockWindow m window l.settings
    else
      checkCount m

/-- The function `TrayItemManager::processCommand(const QStringList &args)`:
the option loop, then the resolution unless the loop returned. -/
def processCommand (env : Env) (m : TrayItemManager) (args : List String) :
    TrayItemManager :=
  let parsed := env.getopt args
  match processCommand.options env m (processCommand.locals m) parsed.1 with
  | Sum.inl m' => m'
  | Sum.inr l => processCommand.resolve env m l parsed.2

/-- The slot `TrayItemManager::selectAndIconify()`. -/
def selectAndIconify (env : Env) (m : TrayItemManager) : TrayItemManager :=
  let selected := userSelectWindow env m true
  let window := selected.2
  if window ≠ 0 then dockWindow selected.1 window m.m_initArgs else selected.1

/-! ## The Qt regular expression functions `processCommand` relies on

`QRegularExpression` belongs to Qt, not to this program, and none of it is
among the sources. `processCommand` takes its two translation functions from
the environment (`Env.escape`, `Env.wildcardToRegularExpression`). What
follows models them, and what `QRegularExpression::match(title).hasMatch()`
answers, for the three pattern modes the specification names: "literal
(special characters escaped), regular expression, and shell-wildcard". The
translations follow the Qt documentation (path wildcards, not on Windows);
matching covers a subset of the Perl-compatible syntax, caseless comparison
is by ASCII lower case, and a pattern outside the subset gets no answer
(`none`). -/

namespace Qt

/-- The characters `[a-zA-Z0-9_]`, which `QRegularExpression::escape` leaves
alone. -/
def isWord (c : Char) : Bool :=
  ('a' ≤ c && c ≤ 'z') || ('A' ≤ c && c ≤ 'Z') || ('0' ≤ c && c ≤ '9') || c == '_'

/-- What `QRegularExpression::escape` does on the characters of the string: NUL
becomes backslash and `0`; every other character outside `[a-zA-Z0-9_]` gets
a backslash in front. -/
def escapeChars : List Char → List Char
  | [] => []
  | c :: cs =>
    if c = Char.ofNat 0 then '\\' :: '0' :: escapeChars cs
    else if isWord c then c :: escapeChars cs
    else '\\' :: c :: escapeChars cs

/-- Modelled from the spec: `QRegularExpression::escape(str)` (Qt, not among
the sources), the "special characters escaped" of the literal mode. -/
def escape (str : String) : String := String.mk (escapeChars str.data)

/-- Where the loop of `wildcardToRegularExpression` stands: in the main
switch, just after `[`, after `[!`, or inside the bracket expression. -/
inductive WildcardMode where
  | main
  | opened
  | negated
  | inside
  deriving DecidableEq, Repr

/-- The characters the main switch of `wildcardToRegularExpression` escapes
with a backslash (path wildcards, not on Windows). -/
def wildcardEscaped (c : Char) : Bool :=
  c == '\\' || c == '$' || c == '(' || c == ')' || c == '+' || c == '.' || c == '^' ||
  c == '{' || c == '|' || c == '}'

/-- One character inside a bracket expression: `/` ends the whole
translation at once (`none`); a backslash is doubled; anything else is
copied. -/
def wildcardInside (c : Char) (rx : List Char) : Option (List Char) :=
  if c = '/' then none
  else if c = '\\' then some (rx ++ ['\\', '\\'])
  else some (rx ++ [c])

/-- The loop of `wildcardToRegularExpression` with default options, not on
Windows: the translation so far is `rx`; the result says whether the loop
ran to the end (`true`) or returned from inside a bracket expression. -/
def wildcardLoop : WildcardMode → List Char → List Char → Bool × List Char
  | _, [], rx => (true, rx)
  | WildcardMode.main, c :: wc, rx =>
    if c = '*' then wildcardLoop WildcardMode.main wc (rx ++ "[^/]*".data)
    else if c = '?' then wildcardLoop WildcardMode.main wc (rx ++ "[^/]".data)
    else if wildcardEscaped c then wildcardLoop WildcardMode.main wc (rx ++ ['\\', c])
    else if c = '[' then wildcardLoop WildcardMode.opened wc (rx ++ ['['])
    else wildcardLoop WildcardMode.main wc (rx ++ [c])
  | WildcardMode.opened, c :: wc, rx =>
    if c = '!' then wildcardLoop WildcardMode.negated wc (rx ++ ['^'])
    else if c = ']' then wildcardLoop WildcardMode.inside wc (rx ++ [']'])
    else
      match wildcardInside c rx with
      | none => (false, rx)
      | some rx' => wildcardLoop WildcardMode.inside wc rx'
  | WildcardMode.negated, c :: wc, rx =>
    if c = ']' then wildcardLoop WildcardMode.inside wc (rx ++ [']'])
    else
      match wildcardInside c rx with
      | none => (false, rx)
      | some rx' => wildcardLoop WildcardMode.inside wc rx'
  | WildcardMode.inside, c :: wc, rx =>
    if c = ']' then wildcardLoop WildcardMode.main wc (rx ++ [']'])
    else
      match wildcardInside c rx with
      | none => (false, rx)
      | some rx' => wildcardLoop WildcardMode.inside wc rx'

/-- Modelled from the spec:
`QRegularExpression::wildcardToRegularExpression(pattern)` (Qt, not among the
sources) with default options, the translation of the shell-wildcard mode:
the translated text wrapped as `\A(?:` .. `)\z`, or the bare beginning when
the loop returned early. -/
def wildcardToRegularExpression (pattern : String) : String :=
  match wildcardLoop WildcardMode.main pattern.data [] with
  | (true, rx) => String.mk ("\\A(?:".data ++ rx ++ ")\\z".data)
  | (false, rx) => String.mk rx

/-- The modelled subset of the pattern syntax, as a tree: the empty
pattern, a literal character, `.`, a bracket expression (negated or not, as
a list of inclusive ranges), the assertions `\A` and `\z`, concatenation,
alternation, and the quantifiers `*`, `+`, `?`. -/
inductive Regex where
  | empty
  | char (c : Char)
  | any
  | cls (neg : Bool) (items : List (Char × Char))
  | startAnchor
  | endAnchor
  | cat (r s : Regex)
  | alt (r s : Regex)
  | star (r : Regex)
  | plus (r : Regex)
  | opt (r : Regex)
  deriving DecidableEq, Repr

/-- The lexical items of a pattern. -/
inductive Token where
  | atom (r : Regex)
  | star
  | plus
  | opt
  | bar
  | lparen
  | rparen
  deriving DecidableEq, Repr

/-- Where the scan of a pattern stands: between items; after a backslash;
just after `(` or `(?`; just after `[`; at the first character of a bracket
expression; inside one, with the ranges read so far, the last single
character (which a `-` may turn into the start of a range) and whether that
`-` has been read; or after a backslash inside one. -/
inductive Scan where
  | normal
  | escape
  | opened
  | openedQuery
  | bracket
  | first (neg : Bool)
  | body (neg : Bool) (items : List (Char × Char)) (last : Option Char) (dash : Bool)
  | bodyEscape (neg : Bool) (items : List (Char × Char)) (last : Option Char) (dash : Bool)
  deriving DecidableEq, Repr

/-- The ranges of a bracket expression once `last` and a trailing `-` are
taken as single characters. -/
def closeClass (items : List (Char × Char)) (last : Option Char) (dash : Bool) :
    List (Char × Char) :=
  items ++ (match last with | some a => [(a, a)] | none => []) ++
    (if dash then [('-', '-')] else [])

/-- A character `x` read inside a bracket expression: it ends a range when a
`-` is pending (an empty range is an error) and is the new last character
otherwise. -/
def classChar (neg : Bool) (items : List (Char × Char)) (last : Option Char) (dash : Bool)
    (x : Char) : Option Scan :=
  match last, dash with
  | some a, true => if a ≤ x then some (Scan.body neg (items ++ [(a, x)]) none false) else none
  | some a, false => some (Scan.body neg (items ++ [(a, a)]) (some x) false)
  | none, _ => some (Scan.body neg items (some x) false)

/-- One character between items: the next state and the items it completes.
`^`, `$` and braces are outside the subset. -/
def stepNormal (c : Char) : Option (Scan × List Token) :=
  if c = '\\' then some (Scan.escape, [])
  else if c = '(' then some (Scan.opened, [Token.lparen])
  else if c = '[' then some (Scan.bracket, [])
  else if c = ')' then some (Scan.normal, [Token.rparen])
  else if c = '|' then some (Scan.normal, [Token.bar])
  else if c = '*' then some (Scan.normal, [Token.star])
  else if c = '+' then some (Scan.normal, [Token.plus])
  else if c = '?' then some (Scan.normal, [Token.opt])
  else if c = '.' then some (Scan.normal, [Token.atom Regex.any])
  else if c = '^' || c = '$' || c = '{' || c = '}' then none
  else some (Scan.normal, [Token.atom (Regex.char c)])

/-- The first character of a bracket expression is taken literally, also
when it is `]`; a nested `[` is outside the subset. -/
def stepFirst (neg : Bool) (c : Char) : Option (Scan × List Token) :=
  if c = '\\' then some (Scan.bodyEscape neg [] none false, [])
  else if c = '[' then none
  else some (Scan.body neg [] (some c) false, [])

/-- One character of the pattern: the next state and the items it
completes, or `none` when the pattern leaves the modelled subset. After a
backslash, `A` and `z` are the assertions, any other letter, digit, `_` or
NUL is outside the subset, and every other character stands for itself.
After `(`, only `?:` may follow a `?`. -/
def step : Scan → Char → Option (Scan × List Token)
  | Scan.normal, c => stepNormal c
  | Scan.escape, c =>
    if c = 'A' then some (Scan.normal, [Token.atom Regex.startAnchor])
    else if c = 'z' then some (Scan.normal, [Token.atom Regex.endAnchor])
    else if isWord c || c = Char.ofNat 0 then none
    else some (Scan.normal, [Token.atom (Regex.char c)])
  | Scan.opened, c => if c = '?' then some (Scan.openedQuery, []) else stepNormal c
  | Scan.openedQuery, c => if c = ':' then some (Scan.normal, []) else none
  | Scan.bracket, c => if c = '^' then some (Scan.first true, []) else stepFirst false c
  | Scan.first neg, c => stepFirst neg c
  | Scan.body neg items last dash, c =>
    if c = '\\' then some (Scan.bodyEscape neg items last dash, [])
    else if c = ']' then
      some (Scan.normal, [Token.atom (Regex.cls neg (closeClass items last dash))])
    else if c = '[' then none
    else if c = '-' && last.isSome && !dash then some (Scan.body neg items last true, [])
    else (classChar neg items last dash c).map (fun scan => (scan, []))
  | Scan.bodyEscape neg items last dash, c =>
    if isWord c || c = Char.ofNat 0 then none
    else (classChar neg items last dash c).map (fun scan => (scan, []))

/-- Split a pattern into lexical items; `none` when it leaves the modelled
subset or ends inside an escape or a bracket expression. -/
def tokens : Scan → List Char → Option (List Token)
  | Scan.normal, [] => some []
  | Scan.opened, [] => some []
  | _, [] => none
  | scan, c :: cs =>
    match step scan c with
    | none => none
    | some (scan', out) => (tokens scan' cs).map (out ++ ·)

/-- One open group (or the whole pattern) while it is being read: the
alternatives completed so far, the sequence before the last atom, the last
atom, and whether a quantifier has been applied to it. -/
structure Frame where
  alts : Option Regex
  pre : Regex
  last : Option Regex
  quantified : Bool
  deriving DecidableEq, Repr

/-- A frame with nothing read. -/
def Frame.start : Frame := { alts := none, pre := Regex.empty, last := none, quantified := false }

/-- The sequence a frame holds. -/
def Frame.seq (f : Frame) : Regex :=
  match f.last with
  | some a => Regex.cat f.pre a
  | none => f.pre

/-- The pattern a frame holds: its alternatives, then its sequence. -/
def Frame.close (f : Frame) : Regex :=
  match f.alts with
  | some a => Regex.alt a f.seq
  | none => f.seq

/-- Append an atom to a frame. -/
def Frame.push (f : Frame) (a : Regex) : Frame :=
  { f with pre := f.seq, last := some a, quantified := false }

/-- Apply a quantifier to the last atom of a frame; a quantifier with
nothing to apply to, or after another quantifier (lazy and possessive
forms), is outside the subset. -/
def Frame.quantify (f : Frame) (q : Regex → Regex) : Option Frame :=
  match f.last, f.quantified with
  | some a, false => some { f with last := some (q a), quantified := true }
  | _, _ => none

/-- Read the lexical items into a tree, innermost open group first in the
stack of frames. -/
def parse : List Token → Frame → List Frame → Option Regex
  | [], f, [] => some f.close
  | [], _, _ :: _ => none
  | Token.atom a :: ts, f, stack => parse ts (f.push a) stack
  | Token.star :: ts, f, stack =>
    match f.quantify Regex.star with
    | some f' => parse ts f' stack
    | none => none
  | Token.plus :: ts, f, stack =>
    match f.quantify Regex.plus with
    | some f' => parse ts f' stack
    | none => none
  | Token.opt :: ts, f, stack =>
    match f.quantify Regex.opt with
    | some f' => parse ts f' stack
    | none => none
  | Token.bar :: ts, f, stack =>
    parse ts { alts := some f.close, pre := Regex.empty, last := none, quantified := false } stack
  | Token.lparen :: ts, f, stack => parse ts Frame.start (f :: stack)
  | Token.rparen :: ts, f, g :: stack => parse ts (g.push f.close) stack
  | Token.rparen :: _, _, [] => none

/-- The tree of a pattern text, when it is in the subset. -/
def compile (pattern : String) : Option Regex :=
  match tokens Scan.normal pattern.data with
  | some ts => parse ts Frame.start []
  | none => none

/-- Caseless comparison folds both sides to lower case. -/
def fold (caseless : Bool) (c : Char) : Char := if caseless then c.toLower else c

/-- Whether character `x` is in one of the ranges. -/
def inRanges (items : List (Char × Char)) (x : Char) : Bool :=
  items.any (fun r => r.1 ≤ x && x ≤ r.2)

/-- Zero or more matches of `f` in a row cover positions `i` to `j`; only
non-empty matches need counting, so the gap `j - i` bounds their number. -/
def starSpans (f : Nat → Nat → Bool) : Nat → Nat → Nat → Bool
  | 0, i, j => i == j
  | fuel + 1, i, j =>
    i == j || (List.range' (i + 1) (j - i)).any (fun k => f i k && starSpans f fuel k j)

/-- The tree matches the subject exactly from position `i` to position `j`. -/
def spans (caseless : Bool) (subject : List Char) : Regex → Nat → Nat → Bool
  | Regex.empty, i, j => i == j
  | Regex.char c, i, j =>
    j == i + 1 && subject[i]?.any (fun x => fold caseless x == fold caseless c)
  | Regex.any, i, j => j == i + 1 && subject[i]?.any (fun x => x != '\n')
  | Regex.cls neg items, i, j =>
    j == i + 1 && subject[i]?.any (fun x =>
      (inRanges items x || (caseless && (inRanges items x.toLower || inRanges items x.toUpper)))
        != neg)
  | Regex.startAnchor, i, j => i == j && i == 0
  | Regex.endAnchor, i, j => i == j && j == subject.length
  | Regex.cat r s, i, j =>
    (List.range' i (j + 1 - i)).any (fun k => spans caseless subject r i k &&
      spans caseless subject s k j)
  | Regex.alt r s, i, j => spans caseless subject r i j || spans caseless subject s i j
  | Regex.star r, i, j => starSpans (spans caseless subject r) (j - i) i j
  | Regex.plus r, i, j =>
    (List.range' i (j + 1 - i)).any (fun k => spans caseless subject r i k &&
      starSpans (spans caseless subject r) (j - k) k j)
  | Regex.opt r, i, j => i == j || spans caseless subject r i j

/-- The tree matches somewhere in the subject. -/
def matchesSomewhere (caseless : Bool) (subject : List Char) (r : Regex) : Bool :=
  (List.range (subject.length + 1)).any (fun i =>
    (List.range' i (subject.length + 1 - i)).any (fun j => spans caseless subject r i j))

/-- Modelled from the spec: `re.match(subject).hasMatch()` (Qt, not among
the sources), which is what "the pattern matches the title" means: the
pattern, compiled with its options, matches somewhere in the subject. -/
def hasMatch (re : QRegularExpression) (subject : String) : Option Bool :=
  (compile re.pattern).map
    (matchesSomewhere (re.patternOptions == PatternOptions.CaseInsensitiveOption) subject.data)

/-- The subject starts with the text, compared character by character,
caselessly when asked. -/
def startsWith (caseless : Bool) : List Char → List Char → Bool
  | [], _ => true
  | _ :: _, [] => false
  | c :: text, x :: subject =>
    fold caseless x == fold caseless c && startsWith caseless text subject

/-- The text occurs in the subject as a run of consecutive characters. -/
def occurs (caseless : Bool) (text subject : List Char) : Bool :=
  (List.range (subject.length + 1)).any (fun i => startsWith caseless text (subject.drop i))

end Qt

/-! ## Vocabulary of the statements: events and forwarding -/

/-- The event is of one of the six window-bearing kinds and `W` is the window
id it bears: the window losing focus, destroyed, unmapped, mapped, whose
visibility changed, or whose property changed. -/
def concerns (event : xcb_generic_event_t) (W : Nat) : Prop :=
  (eventType event = XCB_FOCUS_OUT ∧ W = xcb_focus_out_event_t.event event) ∨
  (eventType event = XCB_DESTROY_NOTIFY ∧ W = xcb_destroy_notify_event_t.window event) ∨
  (eventType event = XCB_UNMAP_NOTIFY ∧ W = xcb_unmap_notify_event_t.window event) ∨
  (eventType event = XCB_MAP_NOTIFY ∧ W = xcb_map_notify_event_t.window event) ∨
  (eventType event = XCB_VISIBILITY_NOTIFY ∧ W = xcb_visibility_notify_event_t.window event) ∨
  (eventType event = XCB_PROPERTY_NOTIFY ∧ W = xcb_property_notify_event_t.window event)

/-- The event type is one of the six window-bearing kinds. -/
def windowBearing (event : xcb_generic_event_t) : Prop :=
  eventType event = XCB_FOCUS_OUT ∨ eventType event = XCB_DESTROY_NOTIFY ∨
  eventType event = XCB_UNMAP_NOTIFY ∨ eventType event = XCB_MAP_NOTIFY ∨
  eventType event = XCB_VISIBILITY_NOTIFY ∨ eventType event = XCB_PROPERTY_NOTIFY

instance (event : xcb_generic_event_t) (W : Nat) : Decidable (concerns event W) := by
  unfold concerns
  infer_instance

instance (event : xcb_generic_event_t) : Decidable (windowBearing event) := by
  unfold windowBearing
  infer_instance

/-- The calls `t->xcbEventFilter(event, W)` for the entries of `ti` whose
window id is `W`, in list order. -/
def forwardsTo (event : xcb_generic_event_t) (W : Nat) (ti : List TrayItem) : List Effect :=
  (ti.filter (fun t => t.dockedWindow = W)).map (fun t => Effect.xcbEventFilter t event W)

/-- The entries a trace forwards an event to, in order. -/
def forwardedTo : List Effect → List TrayItem
  | [] => []
  | Effect.xcbEventFilter t _ _ :: tr => t :: forwardedTo tr
  | _ :: tr => forwardedTo tr

/-- How often a trace emits the `quitMouseGrab` signal. -/
def quitGrabs (tr : List Effect) : Nat := tr.count Effect.quitMouseGrab

/-! ## Vocabulary of the statements: registry operations -/

/-- The wrappers a trace constructs (`new TrayItem`), in order. -/
def created : List Effect → List TrayItem
  | [] => []
  | Effect.newTrayItem t :: tr => t :: created tr
  | _ :: tr => created tr

/-- How often a trace requests application exit (`qApp->quit()`). -/
def quits (tr : List Effect) : Nat := tr.count Effect.quit

/-- A trace without its exit requests. -/
def withoutQuit (tr : List Effect) : List Effect := tr.filter (fun e => e ≠ Effect.quit)

/-- The calls one `undock(t)` makes, up to and including the entry into
`checkCount`. -/
def undockCalls (t : TrayItem) : List Effect :=
  [Effect.restoreWindow t, Effect.setSkipTaskbar t false, Effect.doSkipTaskbar t,
   Effect.deleteLater t, Effect.enterCheckCount]

/-- The registry operations named by the slots of the manager. -/
inductive Op where
  | dockWindow (window : Window) (settings : TrayItemArgs)
  | remove (trayItem : TrayItem)
  | undock (trayItem : TrayItem)
  | undockAll
  deriving DecidableEq, Repr

/-- Run one registry operation. -/
def Op.run (m : TrayItemManager) : Op → TrayItemManager
  | Op.dockWindow window settings => KDocker.dockWindow m window settings
  | Op.remove trayItem => KDocker.remove m trayItem
  | Op.undock trayItem => KDocker.undock m trayItem
  | Op.undockAll => KDocker.undockAll m

/-- Run a sequence of registry operations, first to last. -/
def runOps (m : TrayItemManager) (ops : List Op) : TrayItemManager :=
  ops.foldl Op.run m

/-! ## Vocabulary of the statements: command resolution -/

/-- How many scan requests a trace hands to the scanner. -/
def enqueues : List Effect → Nat
  | [] => 0
  | Effect.enqueue _ :: tr => enqueues tr + 1
  | _ :: tr => enqueues tr

/-- The windows a trace calls `dockWindow` with, in order. -/
def dockAttempts : List Effect → List Window
  | [] => []
  | Effect.enterDockWindow w :: tr => w :: dockAttempts tr
  | _ :: tr => dockAttempts tr

/-- How often a trace enters `checkCount`. -/
def checks (tr : List Effect) : Nat := tr.count Effect.enterCheckCount

/-- What a stretch of trace without enqueue and without dock attempt looks
like, with the registry kept and at least `n` termination checks. -/
def Unresolved (m m' : TrayItemManager) (n : Nat) : Prop :=
  ∃ tr, m'.trace = m.trace ++ tr ∧ enqueues tr = 0 ∧ dockAttempts tr = [] ∧
    m'.m_trayItems = m.m_trayItems ∧ m'.m_scanner = m.m_scanner ∧ n ≤ checks tr

/-- The stretch `tr` of trace hands nothing to the scanner and attempts no
dock, the registry is kept, and `checkCount` is entered at least once. -/
def NoDock (tr : List Effect) (before after : List TrayItem) : Prop :=
  enqueues tr = 0 ∧ dockAttempts tr = [] ∧ after = before ∧ 1 ≤ checks tr

/-- The three resolution paths of one `processCommand` invocation, read off
the stretch `tr` of trace it produces and the registry before and after: one
scan request handed to the scanner and no dock attempt; or one dock attempt,
on a non-zero window, and nothing handed to the scanner; or neither, with the
registry kept and at least one termination check. -/
def OnePath (tr : List Effect) (before after : List TrayItem) : Prop :=
  (enqueues tr = 1 ∧ dockAttempts tr = []) ∨
  ((dockAttempts tr).length = 1 ∧ 0 ∉ dockAttempts tr ∧ enqueues tr = 0) ∨
  NoDock tr before after

instance (tr : List Effect) (before after : List TrayItem) :
    Decidable (NoDock tr before after) := by
  unfold NoDock
  infer_instance

instance (tr : List Effect) (before after : List TrayItem) :
    Decidable (OnePath tr before after) := by
  unfold OnePath
  infer_instance

/-- The pattern mode after an option: `-e n`, `-e r`, `-e w` select literal,
regular expression and wildcard; any other option keeps the mode. -/
def stepMode (mode : PatternType) (o : Char × String) : PatternType :=
  if o.1 = 'e' then
    if o.2 = "n" then PatternType.Normal
    else if o.2 = "r" then PatternType.Regex
    else if o.2 = "w" then PatternType.Wildcard
    else mode
  else mode

/-- The pattern text after an option: `-n text` sets it. -/
def stepText (text : String) (o : Char × String) : String :=
  if o.1 = 'n' then o.2 else text

/-- The pattern options after an option: `-j` makes matching case
sensitive. -/
def stepOptions (options : PatternOptions) (o : Char × String) : PatternOptions :=
  if o.1 = 'j' then PatternOptions.NoPatternOption else options

/-- The mode the options select; literal when none does. -/
def selectedMode (opts : List (Char × String)) : PatternType :=
  opts.foldl stepMode PatternType.Normal

/-- The pattern text the options give; empty when none does. -/
def selectedText (opts : List (Char × String)) : String :=
  opts.foldl stepText ""

/-- The pattern options the options give; caseless unless `-j` is there. -/
def selectedOptions (opts : List (Char × String)) : PatternOptions :=
  opts.foldl stepOptions PatternOptions.CaseInsensitiveOption

/-- The pattern text compiled for a mode: escaped, unchanged, or translated
from wildcard syntax. -/
def compiled (env : Env) (mode : PatternType) (text : String) : String :=
  match mode with
  | PatternType.Normal => env.escape text
  | PatternType.Regex => text
  | PatternType.Wildcard => env.wildcardToRegularExpression text

/-! ## The resolution of a command, after the specification

The definitions of this section do not use `processCommand`: they say, from
the parsed options and what the platform answers, which of the three paths
an invocation is to take. The theorem on `processCommand` compares the code
with them. -/

/-- The window id an `optarg` of `-w` denotes. -/
def windowOfArg (env : Env) (optarg : String) : Window := (env.toInt optarg % 2 ^ 64).toNat

/-- An option the parser does not know. -/
def UnknownOption (o : Char × String) : Prop := o.1 = '?'

/-- A pattern mode other than `n`, `r`, `w`. -/
def InvalidPatternMode (o : Char × String) : Prop :=
  o.1 = 'e' ∧ o.2 ≠ "n" ∧ o.2 ≠ "r" ∧ o.2 ≠ "w"

/-- The active window is asked for and no window has the focus. -/
def NoFocusedWindow (env : Env) (o : Char × String) : Prop :=
  o.1 = 'f' ∧ env.activeWindow = 0

/-- A window id is given and the platform says it is not valid. -/
def InvalidWindowId (env : Env) (o : Char × String) : Prop :=
  o.1 = 'w' ∧ env.isValidWindowId (windowOfArg env o.2) = false

/-- One of the four user-input errors an option can be. -/
def BadOption (env : Env) (o : Char × String) : Prop :=
  UnknownOption o ∨ InvalidPatternMode o ∨ NoFocusedWindow env o ∨ InvalidWindowId env o

instance (o : Char × String) : Decidable (UnknownOption o) := by
  unfold UnknownOption
  infer_instance

instance (o : Char × String) : Decidable (InvalidPatternMode o) := by
  unfold InvalidPatternMode
  infer_instance

instance (env : Env) (o : Char × String) : Decidable (NoFocusedWindow env o) := by
  unfold NoFocusedWindow
  infer_instance

instance (env : Env) (o : Char × String) : Decidable (InvalidWindowId env o) := by
  unfold InvalidWindowId
  infer_instance

instance (env : Env) (o : Char × String) : Decidable (BadOption env o) := by
  unfold BadOption
  infer_instance

/-- The explicitly identified window after an option: `-f` takes the active
window, `-w id` the given id. -/
def stepWindow (env : Env) (window : Window) (o : Char × String) : Window :=
  if o.1 = 'f' then env.activeWindow
  else if o.1 = 'w' then windowOfArg env o.2
  else window

/-- The process id after an option: `-x pid` sets it. -/
def stepPid (env : Env) (pid : Int) (o : Char × String) : Int :=
  if o.1 = 'x' then wrapInt32 (env.atol o.2) else pid

/-- The "require normal window" flag after an option: `-b` clears it. -/
def stepNormality (checkNormality : Bool) (o : Char × String) : Bool :=
  if o.1 = 'b' then false else checkNormality

/-- The explicitly identified window the options give; 0 when none does. -/
def selectedWindow (env : Env) (opts : List (Char × String)) : Window :=
  opts.foldl (stepWindow env) 0

/-- The process id the options give; 0 when none does. -/
def selectedPid (env : Env) (opts : List (Char × String)) : Int :=
  opts.foldl (stepPid env) 0

/-- The "require normal window" flag the options give; set unless `-b` is
there. -/
def selectedNormality (opts : List (Char × String)) : Bool :=
  opts.foldl stepNormality true

/-- The window an interactive selection ends with: 0 when the grab yields no
window (cancelled, timed out, failed), 0 when the window is not normal,
normality is required and the user answers Abort, and the grabbed window
otherwise. -/
def userSelection (env : Env) (grab : GrabInfo) (checkNormality : Bool) : Window :=
  if (env.selectWindow grab).1 = 0 then 0
  else if checkNormality = true ∧ env.isNormalWindow (env.selectWindow grab).1 = false ∧
      env.warningAbort = true then 0
  else (env.selectWindow grab).1

/-- The window an invocation without command and name pattern is about: the
explicitly identified window if there is one, else the window of the given
pid, else the window the user selects. -/
def requestedWindow (env : Env) (m : TrayItemManager) (opts : List (Char × String)) :
    Window :=
  if selectedWindow env opts ≠ 0 then selectedWindow env opts
  else if selectedPid env opts ≠ 0 then
    env.pidToWid (selectedNormality opts) (selectedPid env opts) (dockedWindows m)
  else userSelection env m.m_grabInfo (selectedNormality opts)

/-- The three resolution paths. -/
inductive Resolution where
  | scan
  | dock (window : Window)
  | noWindow
  deriving DecidableEq, Repr

/-- The path an invocation is to take: none when an option is a user-input
error; a scan when a command or a name pattern is present; else a dock of the
requested window, or none when there is no such window. -/
def resolution (env : Env) (m : TrayItemManager) (args : List String) : Resolution :=
  if ∃ o ∈ (env.getopt args).1, BadOption env o then Resolution.noWindow
  else if (env.getopt args).2 ≠ [] ∨ selectedText (env.getopt args).1 ≠ "" then Resolution.scan
  else if requestedWindow env m (env.getopt args).1 ≠ 0 then
    Resolution.dock (requestedWindow env m (env.getopt args).1)
  else Resolution.noWindow

/-- What the stretch `tr` of trace must look like for a resolution path: one
scan request and no dock attempt; or one dock attempt, on the resolved
window, which is not 0, and no scan request; or neither, with the registry
kept and at least one termination check. -/
def Resolves (r : Resolution) (tr : List Effect) (before after : List TrayItem) : Prop :=
  match r with
  | Resolution.scan => enqueues tr = 1 ∧ dockAttempts tr = []
  | Resolution.dock w => w ≠ 0 ∧ dockAttempts tr = [w] ∧ enqueues tr = 0
  | Resolution.noWindow => NoDock tr before after

instance (r : Resolution) (tr : List Effect) (before after : List TrayItem) :
    Decidable (Resolves r tr before after) := by
  unfold Resolves
  cases r <;> infer_instance

/-- Resolution yields no window, in the situations the specification names:
an unknown option, an invalid pattern mode, no focused window, an invalid
window id; or, with neither command nor name pattern nor explicitly
identified window, a pid that resolves to nothing, or a selection that is
aborted. -/
def NoWindow (env : Env) (m : TrayItemManager) (args : List String) : Prop :=
  (∃ o ∈ (env.getopt args).1, UnknownOption o) ∨
  (∃ o ∈ (env.getopt args).1, InvalidPatternMode o) ∨
  (∃ o ∈ (env.getopt args).1, NoFocusedWindow env o) ∨
  (∃ o ∈ (env.getopt args).1, InvalidWindowId env o) ∨
  ((env.getopt args).2 = [] ∧ selectedText (env.getopt args).1 = "" ∧
    selectedWindow env (env.getopt args).1 = 0 ∧ selectedPid env (env.getopt args).1 ≠ 0 ∧
    env.pidToWid (selectedNormality (env.getopt args).1) (selectedPid env (env.getopt args).1)
      (dockedWindows m) = 0) ∨
  ((env.getopt args).2 = [] ∧ selectedText (env.getopt args).1 = "" ∧
    selectedWindow env (env.getopt args).1 = 0 ∧ selectedPid env (env.getopt args).1 = 0 ∧
    userSelection env m.m_grabInfo (selectedNormality (env.getopt args).1) = 0)

instance (env : Env) (m : TrayItemManager) (args : List String) :
    Decidable (NoWindow env m args) := by
  unfold NoWindow
  infer_instance

/-! ## The constructor, example states, events and environment -/

/-- The constructor `TrayItemManager::TrayItemManager()`; it leaves
`m_grabInfo.button` and `m_grabInfo.window` unset, so they are arguments. -/
def TrayItemManager.construct (button : Nat) (window : Window) : TrayItemManager :=
  { m_trayItems := []
    m_grabInfo := { isGrabbing := false, button := button, window := window }
    m_scanner := { m_processes := [] }
    m_initArgs :=
      { sCustomIcon := "", sAttentionIcon := "", iBalloonTimeout := -1,
        optSkipTaskbar := NOARG, optSkipPager := NOARG, optSticky := NOARG,
        optIconifyMinimized := NOARG, optIconifyObscured := NOARG,
        optIconifyFocusLost := NOARG }
    dockedWindow := 0
    heapNext := 0
    trace := [] }

/-- A manager docking windows 5 and 7, as after `dockWindow(5, ..)` and
`dockWindow(7, ..)` on a fresh manager. -/
def exampleRegistry : TrayItemManager :=
  { TrayItemManager.construct 0 0 with
    m_trayItems :=
      [ { ptr := 0, window := 5, settings := (TrayItemManager.construct 0 0).m_initArgs },
        { ptr := 1, window := 7, settings := (TrayItemManager.construct 0 0).m_initArgs } ]
    heapNext := 2 }

/-- The example registry during an interactive selection. -/
def exampleGrabbing : TrayItemManager :=
  { exampleRegistry with m_grabInfo := { isGrabbing := true, button := 0, window := 0 } }

/-- A focus-out event (sent by a client: bit 7 set) for window 5. -/
def focusOut5 : xcb_generic_event_t :=
  { response_type := 0x80 + 10, detail := 0, word4 := 5, word8 := 0, word16 := 0 }

/-- A map-notify event for window 6, which is not docked. -/
def mapNotify6 : xcb_generic_event_t :=
  { response_type := 19, detail := 0, word4 := 1, word8 := 6, word16 := 0 }

/-- A button-press event: button 1, child window 9. -/
def buttonPress1 : xcb_generic_event_t :=
  { response_type := 4, detail := 1, word4 := 0, word8 := 0, word16 := 9 }

/-- A key-release event for key code 9. -/
def keyReleaseEsc : xcb_generic_event_t :=
  { response_type := 3, detail := 9, word4 := 0, word8 := 0, word16 := 0 }

/-- The option scan of the example environment on the arguments after the
program name: a run of arguments `-c` or `-cVALUE`, each an option `c` with
`optarg` `VALUE`, then the command and its arguments. -/
def exampleScan : List String → List (Char × String) × List String
  | [] => ([], [])
  | a :: args =>
    match a.data with
    | '-' :: c :: v => ((c, String.mk v) :: (exampleScan args).1, (exampleScan args).2)
    | _ => ([], a :: args)

/-- The option scan of the example environment: the first argument is the
program name and is skipped, as `getopt` does. -/
def exampleGetopt (args : List String) : List (Char × String) × List String :=
  exampleScan args.tail

/-- An environment for the examples: window 7 has the focus; the valid window
ids are 5 and 7; every number in an `optarg` reads as 5; no pid resolves to a
window; the user selects nothing. -/
def exampleEnv : Env :=
  { getopt := exampleGetopt
    atoi := fun _ => 5
    atol := fun _ => 5
    toInt := fun _ => 5
    activeWindow := 7
    isValidWindowId := fun w => w == 5 || w == 7
    pidToWid := fun _ _ _ => 0
    selectWindow := fun g => (0, "", { g with isGrabbing := false })
    isNormalWindow := fun _ => true
    warningAbort := false
    escape := Qt.escape
    wildcardToRegularExpression := Qt.wildcardToRegularExpression }

/-- The locals of `processCommand` after the options `-ew -na*b`. -/
def exampleLocals : Locals :=
  { processCommand.locals exampleRegistry with
    patType := PatternType.Wildcard
    windowNamePattern := "a*b" }

/-! ## Lemmas on the event filter -/

theorem forwardedTo_append (a b : List Effect) :
    forwardedTo (a ++ b) = forwardedTo a ++ forwardedTo b := by
  induction a with
  | nil => rfl
  | cons x a ih => cases x <;> simp [forwardedTo, ih]

theorem forwardedTo_forwardsTo (event : xcb_generic_event_t) (W : Nat) (ti : List TrayItem) :
    forwardedTo (forwardsTo event W ti) = ti.filter (fun t => t.dockedWindow = W) := by
  unfold forwardsTo
  induction ti.filter (fun t => t.dockedWindow = W) with
  | nil => rfl
  | cons t l ih => simp [forwardedTo, ih]

theorem quitGrabs_forwardsTo (event : xcb_generic_event_t) (W : Nat) (ti : List TrayItem) :
    quitGrabs (forwardsTo event W ti) = 0 := by
  simp [quitGrabs, forwardsTo, List.count_eq_zero]

theorem forward_eq (event : xcb_generic_event_t) (ti : List TrayItem) (m : TrayItemManager) :
    handleXcbEvent.forward event ti m =
      { m with trace := m.trace ++ forwardsTo event m.dockedWindow ti } := by
  induction ti generalizing m with
  | nil => simp [handleXcbEvent.forward, forwardsTo]
  | cons t ti ih =>
    unfold handleXcbEvent.forward
    by_cases h : t.dockedWindow = m.dockedWindow
    · rw [if_pos h, ih]
      simp [TrayItemManager.emit, forwardsTo, h]
    · rw [if_neg h, ih]
      simp [forwardsTo, h]

/-- The handler is the switch, then the forwards for the latched window id
(none when it is zero), then `free`. -/
theorem handleXcbEvent_eq (m : TrayItemManager) (event : xcb_generic_event_t) :
    handleXcbEvent m event =
      { handleXcbEvent.classify m event with
        trace := (handleXcbEvent.classify m event).trace ++
          (if (handleXcbEvent.classify m event).dockedWindow = 0 then []
           else forwardsTo event (handleXcbEvent.classify m event).dockedWindow
             (handleXcbEvent.classify m event).m_trayItems) ++ [Effect.free event] } := by
  unfold handleXcbEvent
  by_cases h : (handleXcbEvent.classify m event).dockedWindow = 0
  · simp [h, TrayItemManager.emit]
  · simp [h, forward_eq, TrayItemManager.emit]

theorem classify_concerns (m : TrayItemManager) (event : xcb_generic_event_t) (W : Nat)
    (h : concerns event W) :
    handleXcbEvent.classify m event = { m with dockedWindow := W } := by
  unfold handleXcbEvent.classify
  rcases h with h | h | h | h | h | h <;> obtain ⟨h1, h2⟩ := h <;>
    simp [h1, h2, XCB_FOCUS_OUT, XCB_DESTROY_NOTIFY, XCB_UNMAP_NOTIFY, XCB_MAP_NOTIFY,
      XCB_VISIBILITY_NOTIFY, XCB_PROPERTY_NOTIFY, xcb_visibility_notify_event_t.window,
      xcb_property_notify_event_t.window]


theorem classify_trayItems (m : TrayItemManager) (event : xcb_generic_event_t) :
    (handleXcbEvent.classify m event).m_trayItems = m.m_trayItems := by
  unfold handleXcbEvent.classify
  generalize eventType event = ty
  dsimp only
  repeat' split
  all_goals rfl

theorem classify_forwardedTo (m : TrayItemManager) (event : xcb_generic_event_t) :
    forwardedTo (handleXcbEvent.classify m event).trace = forwardedTo m.trace := by
  unfold handleXcbEvent.classify
  generalize eventType event = ty
  dsimp only
  repeat' split
  all_goals simp [TrayItemManager.emit, forwardedTo_append, forwardedTo]

theorem classify_other (m : TrayItemManager) (event : xcb_generic_event_t)
    (h : ¬ windowBearing event) :
    (handleXcbEvent.classify m event).dockedWindow = m.dockedWindow := by
  unfold windowBearing at h
  simp only [not_or] at h
  obtain ⟨h1, h2, h3, h4, h5, h6⟩ := h
  unfold handleXcbEvent.classify
  simp only [h1, h2, h3, h4, h5, h6, if_false]
  split_ifs <;> simp [TrayItemManager.emit]

theorem concerns_windowBearing (event : xcb_generic_event_t) (W : Nat)
    (h : concerns event W) : windowBearing event := by
  unfold windowBearing
  rcases h with h | h | h | h | h | h <;> simp [h.1]


theorem classify_grab_other (m : TrayItemManager) (event : xcb_generic_event_t)
    (h1 : ¬ (m.m_grabInfo.isGrabbing = true ∧ eventType event = XCB_BUTTON_PRESS))
    (h2 : ¬ (m.m_grabInfo.isGrabbing = true ∧ eventType event = XCB_KEY_RELEASE ∧
      xcb_key_release_event_t.detail event = 9)) :
    (handleXcbEvent.classify m event).m_grabInfo = m.m_grabInfo ∧
    (handleXcbEvent.classify m event).trace = m.trace := by
  unfold handleXcbEvent.classify
  generalize eventType event = ty at h1 h2
  dsimp only
  repeat' split
  all_goals first
    | exact ⟨rfl, rfl⟩
    | (exfalso; simp_all [ESC_key])

theorem handleXcbEvent_grabInfo (m : TrayItemManager) (event : xcb_generic_event_t) :
    (handleXcbEvent m event).m_grabInfo = (handleXcbEvent.classify m event).m_grabInfo := by
  rw [handleXcbEvent_eq]

theorem handleXcbEvent_quitGrabs (m : TrayItemManager) (event : xcb_generic_event_t) :
    quitGrabs (handleXcbEvent m event).trace =
      quitGrabs (handleXcbEvent.classify m event).trace := by
  rw [handleXcbEvent_eq]
  have h := quitGrabs_forwardsTo event (handleXcbEvent.classify m event).dockedWindow
    (handleXcbEvent.classify m event).m_trayItems
  unfold quitGrabs at *
  split_ifs <;> simp [List.count_append, h]

/-- An event of a kind outside the six leaves the static `dockedWindow` as
it was and is forwarded to the entries docking that window, if it is
non-zero. -/
theorem handleXcbEvent_other_kind (m : TrayItemManager) (event : xcb_generic_event_t)
    (h : ¬ windowBearing event) :
    (handleXcbEvent m event).dockedWindow = m.dockedWindow ∧
    forwardedTo (handleXcbEvent m event).trace =
      forwardedTo m.trace ++
        (if m.dockedWindow = 0 then []
         else m.m_trayItems.filter (fun t => t.dockedWindow = m.dockedWindow)) := by
  rw [handleXcbEvent_eq]
  refine ⟨classify_other m event h, ?_⟩
  simp only [classify_other m event h, classify_trayItems, forwardedTo_append,
    classify_forwardedTo]
  split_ifs <;> simp [forwardedTo, forwardedTo_forwardsTo]

/-! ## Theorems on the event filter -/

/-- C1: an event of one of the six window-bearing kinds that concerns window
`W` is forwarded, when `W` is non-zero, to exactly the registry entries whose
`dockedWindow()` is `W`, once each and in registry order, then freed; when `W`
is zero or no entry has id `W` it is only freed. The registry, the grab
record and the scanner are as before in every case. -/
theorem handleXcbEvent_routes (m : TrayItemManager) (event : xcb_generic_event_t) (W : Nat)
    (h : concerns event W) :
    (W ≠ 0 → handleXcbEvent m event =
      { m with dockedWindow := W
               trace := m.trace ++ forwardsTo event W m.m_trayItems ++ [Effect.free event] }) ∧
    ((W = 0 ∨ ∀ t ∈ m.m_trayItems, t.dockedWindow ≠ W) →
      handleXcbEvent m event =
        { m with dockedWindow := W, trace := m.trace ++ [Effect.free event] }) ∧
    (handleXcbEvent m event).m_trayItems = m.m_trayItems := by
  rw [handleXcbEvent_eq, classify_concerns m event W h]
  refine ⟨?_, ?_, rfl⟩
  · intro hW
    simp [hW]
  · rintro (hW | hnone)
    · simp [hW]
    · by_cases hW : W = 0
      · simp [hW]
      · have : forwardsTo event W m.m_trayItems = [] := by
          simp only [forwardsTo, List.map_eq_nil_iff, List.filter_eq_nil_iff]
          intro t ht
          simpa using hnone t ht
        simp [hW, this]

theorem handleXcbEvent_routes_witness :
    handleXcbEvent exampleRegistry focusOut5 =
      { exampleRegistry with
        dockedWindow := 5
        trace := exampleRegistry.trace ++ forwardsTo focusOut5 5 exampleRegistry.m_trayItems ++
          [Effect.free focusOut5] } ∧
    handleXcbEvent exampleRegistry mapNotify6 =
      { exampleRegistry with
        dockedWindow := 6, trace := exampleRegistry.trace ++ [Effect.free mapNotify6] } :=
  ⟨(handleXcbEvent_routes exampleRegistry focusOut5 5 (by decide)).1 (by decide),
   (handleXcbEvent_routes exampleRegistry mapNotify6 6 (by decide)).2.1
     (Or.inr (by decide))⟩

/-- C2, evaluated: after a focus-out event for the docked window 5, the
static `dockedWindow` still holds 5 when a button-press event arrives, so the
button-press is forwarded to the entry docking window 5, although a
button-press is not one of the six window-bearing kinds. -/
theorem handleXcbEvent_stale_dockedWindow :
    ¬ windowBearing buttonPress1 ∧
    (handleXcbEvent exampleRegistry focusOut5).dockedWindow = 5 ∧
    (handleXcbEvent (handleXcbEvent exampleRegistry focusOut5) buttonPress1).trace =
      (handleXcbEvent exampleRegistry focusOut5).trace ++
        [ Effect.xcbEventFilter
            { ptr := 0, window := 5, settings := exampleRegistry.m_initArgs } buttonPress1 5,
          Effect.free buttonPress1 ] := by
  decide

/-- C7: the effect of `handleXcbEvent` on the grab record. With a grab active,
a button-press clears the active flag, records the button and the child
window of the event and emits `quitMouseGrab` once; with a grab active, a
key-release with key code 9 clears the active flag, leaves button and window
as recorded and emits `quitMouseGrab` once; in every other case the grab
record is as before and `quitMouseGrab` is not emitted. -/
theorem handleXcbEvent_grab (m : TrayItemManager) (event : xcb_generic_event_t) :
    (m.m_grabInfo.isGrabbing = true ∧ eventType event = XCB_BUTTON_PRESS →
      (handleXcbEvent m event).m_grabInfo =
        { isGrabbing := false
          button := xcb_button_press_event_t.detail event
          window := xcb_button_press_event_t.child event } ∧
      quitGrabs (handleXcbEvent m event).trace = quitGrabs m.trace + 1) ∧
    (m.m_grabInfo.isGrabbing = true ∧ eventType event = XCB_KEY_RELEASE ∧
        xcb_key_release_event_t.detail event = 9 →
      (handleXcbEvent m event).m_grabInfo =
        { isGrabbing := false, button := m.m_grabInfo.button, window := m.m_grabInfo.window } ∧
      quitGrabs (handleXcbEvent m event).trace = quitGrabs m.trace + 1) ∧
    (¬ (m.m_grabInfo.isGrabbing = true ∧ eventType event = XCB_BUTTON_PRESS) ∧
      ¬ (m.m_grabInfo.isGrabbing = true ∧ eventType event = XCB_KEY_RELEASE ∧
        xcb_key_release_event_t.detail event = 9) →
      (handleXcbEvent m event).m_grabInfo = m.m_grabInfo ∧
      quitGrabs (handleXcbEvent m event).trace = quitGrabs m.trace) := by
  rw [handleXcbEvent_grabInfo, handleXcbEvent_quitGrabs]
  refine ⟨?_, ?_, ?_⟩
  · rintro ⟨hg, ht⟩
    unfold handleXcbEvent.classify
    simp [ht, hg, XCB_BUTTON_PRESS, XCB_FOCUS_OUT, XCB_DESTROY_NOTIFY, XCB_UNMAP_NOTIFY,
      XCB_MAP_NOTIFY, XCB_VISIBILITY_NOTIFY, XCB_PROPERTY_NOTIFY, TrayItemManager.emit,
      quitGrabs, List.count_append]
  · rintro ⟨hg, ht, hd⟩
    unfold handleXcbEvent.classify
    simp [ht, hg, hd, XCB_KEY_RELEASE, XCB_BUTTON_PRESS, XCB_FOCUS_OUT, XCB_DESTROY_NOTIFY,
      XCB_UNMAP_NOTIFY, XCB_MAP_NOTIFY, XCB_VISIBILITY_NOTIFY, XCB_PROPERTY_NOTIFY, ESC_key,
      TrayItemManager.emit, quitGrabs, List.count_append]
  · rintro ⟨h1, h2⟩
    obtain ⟨hgi, htr⟩ := classify_grab_other m event h1 h2
    rw [hgi, htr]
    exact ⟨rfl, rfl⟩

theorem handleXcbEvent_grab_witness :
    ((handleXcbEvent exampleGrabbing buttonPress1).m_grabInfo =
        { isGrabbing := false, button := 1, window := 9 } ∧
      quitGrabs (handleXcbEvent exampleGrabbing buttonPress1).trace = 1) ∧
    ((handleXcbEvent exampleGrabbing keyReleaseEsc).m_grabInfo =
        { isGrabbing := false, button := 0, window := 0 } ∧
      quitGrabs (handleXcbEvent exampleGrabbing keyReleaseEsc).trace = 1) ∧
    ((handleXcbEvent exampleRegistry buttonPress1).m_grabInfo = exampleRegistry.m_grabInfo ∧
      quitGrabs (handleXcbEvent exampleRegistry buttonPress1).trace = 0) :=
  ⟨(handleXcbEvent_grab exampleGrabbing buttonPress1).1 ⟨rfl, by decide⟩,
   (handleXcbEvent_grab exampleGrabbing keyReleaseEsc).2.1 ⟨rfl, by decide, by decide⟩,
   (handleXcbEvent_grab exampleRegistry buttonPress1).2.2 ⟨by decide, by decide⟩⟩

/-- C8 as stated fails: with a grab active, a focus-out event for the docked
window 5 is forwarded to the entries docking it. -/
theorem handleXcbEvent_grabbing_not_suspended :
    ¬ ∀ (m : TrayItemManager) (event : xcb_generic_event_t),
        m.m_grabInfo.isGrabbing = true →
        forwardedTo (handleXcbEvent m event).trace = forwardedTo m.trace := by
  intro h
  have h5 := h exampleGrabbing focusOut5 rfl
  revert h5
  decide

/-- C8, amended: while a grab is active, an event of the six window-bearing
kinds concerning a non-zero window `W` is still forwarded to the entries whose
id is `W`, in registry order; an event of any other kind, which includes the
button-press and key-release that end the grab, is forwarded to no entry when
the window id kept from earlier events is zero. -/
theorem handleXcbEvent_grabbing_routes (m : TrayItemManager) (event : xcb_generic_event_t)
    (_hg : m.m_grabInfo.isGrabbing = true) :
    (∀ W, concerns event W → W ≠ 0 →
      forwardedTo (handleXcbEvent m event).trace =
        forwardedTo m.trace ++ m.m_trayItems.filter (fun t => t.dockedWindow = W)) ∧
    (¬ windowBearing event → m.dockedWindow = 0 →
      forwardedTo (handleXcbEvent m event).trace = forwardedTo m.trace) := by
  constructor
  · intro W hc hW
    rw [handleXcbEvent_eq, classify_concerns m event W hc]
    simp [hW, forwardedTo_append, forwardedTo_forwardsTo, forwardedTo]
  · intro hnb h0
    rw [handleXcbEvent_eq]
    simp [classify_other m event hnb, h0, forwardedTo_append, classify_forwardedTo, forwardedTo]

theorem handleXcbEvent_grabbing_routes_witness :
    forwardedTo (handleXcbEvent exampleGrabbing focusOut5).trace =
        forwardedTo exampleGrabbing.trace ++
          exampleGrabbing.m_trayItems.filter (fun t => t.dockedWindow = 5) ∧
    forwardedTo (handleXcbEvent exampleGrabbing buttonPress1).trace =
        forwardedTo exampleGrabbing.trace :=
  ⟨(handleXcbEvent_grabbing_routes exampleGrabbing focusOut5 rfl).1 5
      (by decide) (by decide),
   (handleXcbEvent_grabbing_routes exampleGrabbing buttonPress1 rfl).2
      (by decide) rfl⟩

/-! ## Lemmas on the registry operations -/

theorem checkCount_eq (m : TrayItemManager) :
    checkCount m =
      { m with trace := m.trace ++ Effect.enterCheckCount ::
          (if m.m_trayItems = [] ∧ m.m_scanner.isRunning = false then [Effect.quit] else []) } := by
  unfold checkCount
  cases hr : m.m_scanner.isRunning <;> cases hl : m.m_trayItems <;>
    simp [TrayItemManager.emit, hr, hl]

theorem remove_eq (m : TrayItemManager) (t : TrayItem) :
    remove m t =
      { m with
        m_trayItems := m.m_trayItems.filter (fun x => x.ptr ≠ t.ptr)
        trace := m.trace ++ Effect.deleteLater t :: Effect.enterCheckCount ::
          (if m.m_trayItems.filter (fun x => x.ptr ≠ t.ptr) = [] ∧
              m.m_scanner.isRunning = false then [Effect.quit] else []) } := by
  unfold remove
  simp [checkCount_eq, TrayItemManager.emit]

theorem undock_eq (m : TrayItemManager) (t : TrayItem) :
    undock m t =
      { m with
        m_trayItems := m.m_trayItems.filter (fun x => x.ptr ≠ t.ptr)
        trace := m.trace ++ undockCalls t ++
          (if m.m_trayItems.filter (fun x => x.ptr ≠ t.ptr) = [] ∧
              m.m_scanner.isRunning = false then [Effect.quit] else []) } := by
  unfold undock
  simp [remove_eq, TrayItemManager.emit, undockCalls]

theorem created_append (a b : List Effect) : created (a ++ b) = created a ++ created b := by
  induction a with
  | nil => rfl
  | cons x a ih => cases x <;> simp [created, ih]

theorem dockWindow_docked (m : TrayItemManager) (W : Window) (settings : TrayItemArgs)
    (h : W ∈ dockedWindows m) :
    dockWindow m W settings =
      { m with trace := m.trace ++
          [ Effect.enterDockWindow W,
            Effect.messageBox
              "This window is already docked.\nClick on system tray icon to toggle docking.",
            Effect.enterCheckCount ] } := by
  have hne : m.m_trayItems ≠ [] := by
    intro h0
    simp [dockedWindows, h0] at h
  have hd : isWindowDocked (m.emit (Effect.enterDockWindow W)) W = true := by
    simpa [isWindowDocked, dockedWindows, TrayItemManager.emit] using h
  unfold dockWindow
  simp only [hd, if_true]
  simp [checkCount_eq, TrayItemManager.emit, hne]

/-! ## Theorems on the registry operations -/

/-- C3: docking a window id that is already in the registry is rejected. The
manager afterwards differs from the manager before only by the trace, which
gains the entry marker, the "already docked" notice and the entry into
`checkCount`; the registry is the same list, and no `TrayItem` is
constructed. -/
theorem dockWindow_duplicate (m : TrayItemManager) (W : Window) (settings : TrayItemArgs)
    (h : W ∈ dockedWindows m) :
    dockWindow m W settings =
      { m with trace := m.trace ++
          [ Effect.enterDockWindow W,
            Effect.messageBox
              "This window is already docked.\nClick on system tray icon to toggle docking.",
            Effect.enterCheckCount ] } ∧
    (dockWindow m W settings).m_trayItems = m.m_trayItems ∧
    (dockWindow m W settings).m_trayItems.length = m.m_trayItems.length ∧
    created (dockWindow m W settings).trace = created m.trace := by
  rw [dockWindow_docked m W settings h]
  refine ⟨rfl, rfl, rfl, ?_⟩
  simp [created_append, created]

theorem dockWindow_duplicate_witness :
    dockWindow exampleRegistry 7 exampleRegistry.m_initArgs =
      { exampleRegistry with trace := exampleRegistry.trace ++
          [ Effect.enterDockWindow 7,
            Effect.messageBox
              "This window is already docked.\nClick on system tray icon to toggle docking.",
            Effect.enterCheckCount ] } :=
  (dockWindow_duplicate exampleRegistry 7 exampleRegistry.m_initArgs (by decide)).1

/-- C11: a rejected duplicate dock never requests application exit. For every
registry that contains window id `W` and every scanner state, running or
not, `dockWindow(W, config)` enters `checkCount` exactly once and adds no
`quit` to the trace: the registry `checkCount` looks at is the registry
before the call, which holds the entry docking `W` and so is not empty. -/
theorem dockWindow_duplicate_no_quit (m : TrayItemManager) (scanner : Scanner) (W : Window)
    (settings : TrayItemArgs) (h : W ∈ dockedWindows m) :
    (dockWindow { m with m_scanner := scanner } W settings).m_trayItems = m.m_trayItems ∧
    m.m_trayItems ≠ [] ∧
    checks (dockWindow { m with m_scanner := scanner } W settings).trace = checks m.trace + 1 ∧
    quits (dockWindow { m with m_scanner := scanner } W settings).trace = quits m.trace := by
  have hne : m.m_trayItems ≠ [] := by
    intro h0
    simp [dockedWindows, h0] at h
  have h' : W ∈ dockedWindows { m with m_scanner := scanner } := h
  rw [dockWindow_docked { m with m_scanner := scanner } W settings h']
  refine ⟨rfl, hne, ?_, ?_⟩
  · simp [checks, List.count_append, List.count_cons]
  · simp [quits, List.count_append, List.count_cons]

theorem dockWindow_duplicate_no_quit_witness :
    quits (dockWindow
        { runOps (TrayItemManager.construct 0 0) [Op.dockWindow 5 exampleRegistry.m_initArgs]
          with m_scanner := { m_processes := [] } }
        5 exampleRegistry.m_initArgs).trace =
      quits (runOps (TrayItemManager.construct 0 0)
        [Op.dockWindow 5 exampleRegistry.m_initArgs]).trace ∧
    quits (dockWindow
        { exampleRegistry with
          m_scanner := { m_processes := [processCommand.request exampleEnv exampleLocals []] } }
        7 exampleRegistry.m_initArgs).trace = quits exampleRegistry.trace :=
  ⟨(dockWindow_duplicate_no_quit
      (runOps (TrayItemManager.construct 0 0) [Op.dockWindow 5 exampleRegistry.m_initArgs])
      { m_processes := [] } 5 exampleRegistry.m_initArgs (by decide)).2.2.2,
   (dockWindow_duplicate_no_quit exampleRegistry
      { m_processes := [processCommand.request exampleEnv exampleLocals []] } 7
      exampleRegistry.m_initArgs (by decide)).2.2.2⟩

theorem dockWindow_trayItems (m : TrayItemManager) (W : Window) (settings : TrayItemArgs) :
    (dockWindow m W settings).m_trayItems =
      if W ∈ dockedWindows m then m.m_trayItems
      else m.m_trayItems ++ [{ ptr := m.heapNext, window := W, settings := settings }] := by
  by_cases h : W ∈ dockedWindows m
  · rw [if_pos h, dockWindow_docked m W settings h]
  · have hd : isWindowDocked (m.emit (Effect.enterDockWindow W)) W = false := by
      simpa [isWindowDocked, dockedWindows, TrayItemManager.emit] using h
    rw [if_neg h]
    unfold dockWindow
    simp only [hd]
    simp [TrayItemManager.emit]

theorem nodup_dockWindow (m : TrayItemManager) (W : Window) (settings : TrayItemArgs)
    (h : (dockedWindows m).Nodup) : (dockedWindows (dockWindow m W settings)).Nodup := by
  unfold dockedWindows at *
  rw [dockWindow_trayItems]
  by_cases hW : W ∈ List.map TrayItem.dockedWindow m.m_trayItems
  · simpa [dockedWindows, hW] using h
  · simp only [dockedWindows, hW, if_false, List.map_append, List.map_cons, List.map_nil]
    rw [List.nodup_append]
    refine ⟨h, List.nodup_singleton _, ?_⟩
    intro a ha hb
    rw [List.mem_singleton] at hb
    subst hb
    exact hW ha

theorem nodup_undock (m : TrayItemManager) (t : TrayItem)
    (h : (dockedWindows m).Nodup) : (dockedWindows (undock m t)).Nodup := by
  rw [undock_eq]
  exact h.sublist ((List.filter_sublist _).map _)

theorem nodup_remove (m : TrayItemManager) (t : TrayItem)
    (h : (dockedWindows m).Nodup) : (dockedWindows (remove m t)).Nodup := by
  rw [remove_eq]
  exact h.sublist ((List.filter_sublist _).map _)

theorem nodup_foldl_undock (l : List TrayItem) (m : TrayItemManager)
    (h : (dockedWindows m).Nodup) : (dockedWindows (l.foldl undock m)).Nodup := by
  induction l generalizing m with
  | nil => exact h
  | cons t l ih => exact ih _ (nodup_undock m t h)

theorem nodup_run (m : TrayItemManager) (op : Op)
    (h : (dockedWindows m).Nodup) : (dockedWindows (op.run m)).Nodup := by
  cases op with
  | dockWindow window settings => exact nodup_dockWindow m window settings h
  | remove trayItem => exact nodup_remove m trayItem h
  | undock trayItem => exact nodup_undock m trayItem h
  | undockAll => exact nodup_foldl_undock _ m h

/-- C4: in every state reached from a manager with an empty registry by any
sequence of `dockWindow`, `remove`, `undock` and `undockAll`, the list
`dockedWindows()` has no duplicates. -/
theorem runOps_dockedWindows_nodup (m : TrayItemManager) (ops : List Op)
    (h : m.m_trayItems = []) : (dockedWindows (runOps m ops)).Nodup := by
  have h0 : (dockedWindows m).Nodup := by simp [dockedWindows, h]
  clear h
  unfold runOps
  induction ops generalizing m with
  | nil => exact h0
  | cons op ops ih => exact ih _ (nodup_run m op h0)

theorem runOps_dockedWindows_nodup_witness :
    (dockedWindows (runOps (TrayItemManager.construct 0 0)
      [ Op.dockWindow 5 exampleRegistry.m_initArgs,
        Op.dockWindow 7 exampleRegistry.m_initArgs,
        Op.dockWindow 5 exampleRegistry.m_initArgs,
        Op.undock { ptr := 0, window := 5, settings := exampleRegistry.m_initArgs },
        Op.dockWindow 5 exampleRegistry.m_initArgs ])).Nodup :=
  runOps_dockedWindows_nodup (TrayItemManager.construct 0 0) _ rfl

/-- C5: `remove(entry)` drops the entry from the registry and requests
application exit exactly once when the registry is then empty and the scanner
is not running, and not at all otherwise; so not when another entry remains,
and not while the scanner runs. `undock(entry)` does the same. -/
theorem remove_quits (m : TrayItemManager) (t : TrayItem) :
    ((remove m t).m_trayItems = m.m_trayItems.filter (fun x => x.ptr ≠ t.ptr) ∧
      (undock m t).m_trayItems = (remove m t).m_trayItems) ∧
    (quits (remove m t).trace = quits m.trace +
        (if (remove m t).m_trayItems = [] ∧ m.m_scanner.isRunning = false then 1 else 0) ∧
      quits (undock m t).trace = quits m.trace +
        (if (undock m t).m_trayItems = [] ∧ m.m_scanner.isRunning = false then 1 else 0)) ∧
    ((∃ x ∈ m.m_trayItems, x.ptr ≠ t.ptr) →
      quits (remove m t).trace = quits m.trace ∧ quits (undock m t).trace = quits m.trace) ∧
    (m.m_scanner.isRunning = true →
      quits (remove m t).trace = quits m.trace ∧ quits (undock m t).trace = quits m.trace) := by
  have hr : quits (remove m t).trace = quits m.trace +
      (if (remove m t).m_trayItems = [] ∧ m.m_scanner.isRunning = false then 1 else 0) := by
    rw [remove_eq]
    unfold quits
    split_ifs <;> simp [List.count_append, List.count_cons]
  have hu : quits (undock m t).trace = quits m.trace +
      (if (undock m t).m_trayItems = [] ∧ m.m_scanner.isRunning = false then 1 else 0) := by
    rw [undock_eq]
    unfold quits
    split_ifs <;> simp [List.count_append, List.count_cons, undockCalls]
  have hsame : (undock m t).m_trayItems = (remove m t).m_trayItems := by
    rw [undock_eq, remove_eq]
  have hfilter : (remove m t).m_trayItems = m.m_trayItems.filter (fun x => x.ptr ≠ t.ptr) := by
    rw [remove_eq]
  refine ⟨⟨hfilter, hsame⟩, ⟨hr, hu⟩, ?_, ?_⟩
  · rintro ⟨x, hx, hne⟩
    have hne' : (remove m t).m_trayItems ≠ [] := by
      rw [hfilter]
      intro h0
      rw [List.filter_eq_nil_iff] at h0
      exact h0 x hx (by simpa using hne)
    rw [hr, hu, hsame]
    simp [hne']
  · intro hrun
    rw [hr, hu]
    simp [hrun]

theorem remove_quits_witness :
    quits (remove exampleRegistry
        { ptr := 1, window := 7, settings := exampleRegistry.m_initArgs }).trace =
      quits exampleRegistry.trace ∧
    quits (undock exampleRegistry
        { ptr := 1, window := 7, settings := exampleRegistry.m_initArgs }).trace =
      quits exampleRegistry.trace :=
  (remove_quits exampleRegistry
    { ptr := 1, window := 7, settings := exampleRegistry.m_initArgs }).2.2.1
    ⟨{ ptr := 0, window := 5, settings := exampleRegistry.m_initArgs }, by decide, by decide⟩

theorem withoutQuit_append (a b : List Effect) :
    withoutQuit (a ++ b) = withoutQuit a ++ withoutQuit b := by
  simp [withoutQuit]

theorem withoutQuit_undock (m : TrayItemManager) (t : TrayItem) :
    withoutQuit (undock m t).trace = withoutQuit m.trace ++ undockCalls t := by
  rw [undock_eq]
  simp only [withoutQuit_append]
  split_ifs <;> simp [withoutQuit, undockCalls]

theorem foldl_undock (l : List TrayItem) (m : TrayItemManager) :
    (l.foldl undock m).m_trayItems =
        m.m_trayItems.filter (fun x => decide (∀ t ∈ l, x.ptr ≠ t.ptr)) ∧
    withoutQuit (l.foldl undock m).trace =
        withoutQuit m.trace ++ (l.map undockCalls).flatten := by
  induction l generalizing m with
  | nil => simp
  | cons t l ih =>
    obtain ⟨h1, h2⟩ := ih (undock m t)
    rw [List.foldl_cons, h1, h2, withoutQuit_undock]
    constructor
    · rw [undock_eq]
      simp only [List.filter_filter]
      congr 1
      funext x
      simp [Bool.and_comm]
    · simp

/-- C9: `undockAll()` undocks every entry that is registered when it is
called, once each and in registry order: apart from exit requests, the trace
grows by the calls of `undock` (restore the window, clear skip-taskbar and
apply it, schedule deletion, check termination) for the first entry, then
for the second, and so on. The registry is empty afterwards. -/
theorem undockAll_all (m : TrayItemManager) :
    withoutQuit (undockAll m).trace =
        withoutQuit m.trace ++ (m.m_trayItems.map undockCalls).flatten ∧
    (undockAll m).m_trayItems = [] := by
  unfold undockAll
  obtain ⟨h1, h2⟩ := foldl_undock m.m_trayItems m
  refine ⟨h2, ?_⟩
  rw [h1, List.filter_eq_nil_iff]
  intro x hx
  simp only [decide_eq_true_eq, not_forall]
  exact ⟨x, hx, fun h => h rfl⟩

/-! ## Lemmas on the command entry point -/

theorem enqueues_append (a b : List Effect) : enqueues (a ++ b) = enqueues a + enqueues b := by
  induction a with
  | nil => simp [enqueues]
  | cons x a ih => cases x <;> simp [enqueues, ih]; omega

theorem dockAttempts_append (a b : List Effect) :
    dockAttempts (a ++ b) = dockAttempts a ++ dockAttempts b := by
  induction a with
  | nil => rfl
  | cons x a ih => cases x <;> simp [dockAttempts, ih]

theorem Unresolved.refl (m : TrayItemManager) : Unresolved m m 0 :=
  ⟨[], by simp, rfl, rfl, rfl, rfl, Nat.le_refl _⟩

theorem Unresolved.trans {a b c : TrayItemManager} {i j : Nat}
    (h1 : Unresolved a b i) (h2 : Unresolved b c j) : Unresolved a c (i + j) := by
  obtain ⟨t1, e1, q1, d1, r1, s1, c1⟩ := h1
  obtain ⟨t2, e2, q2, d2, r2, s2, c2⟩ := h2
  refine ⟨t1 ++ t2, ?_, ?_, ?_, ?_, ?_, ?_⟩
  · rw [e2, e1, List.append_assoc]
  · rw [enqueues_append, q1, q2]
  · rw [dockAttempts_append, d1, d2]; rfl
  · rw [r2, r1]
  · rw [s2, s1]
  · unfold checks at *
    rw [List.count_append]
    omega

theorem Unresolved.checkCount (m : TrayItemManager) : Unresolved m (checkCount m) 1 := by
  rw [checkCount_eq]
  refine ⟨_, rfl, ?_, ?_, rfl, rfl, ?_⟩
  · split_ifs <;> simp [enqueues]
  · split_ifs <;> simp [dockAttempts]
  · unfold checks
    split_ifs <;> simp [List.count_cons]

theorem Unresolved.messageBox (m : TrayItemManager) (text : String) :
    Unresolved m (m.emit (Effect.messageBox text)) 0 :=
  ⟨[Effect.messageBox text], rfl, rfl, rfl, rfl, rfl, Nat.zero_le _⟩

theorem Unresolved.stdout (m : TrayItemManager) (text : String) :
    Unresolved m (m.emit (Effect.stdout text)) 0 :=
  ⟨[Effect.stdout text], rfl, rfl, rfl, rfl, rfl, Nat.zero_le _⟩

theorem Unresolved.notice_check (m : TrayItemManager) (text : String) :
    Unresolved m (KDocker.checkCount (m.emit (Effect.messageBox text))) 1 := by
  simpa using (Unresolved.messageBox m text).trans (Unresolved.checkCount _)

theorem dockWindow_fresh (m : TrayItemManager) (W : Window) (settings : TrayItemArgs)
    (h : W ∉ dockedWindows m) :
    dockWindow m W settings =
      { m with
        m_trayItems := m.m_trayItems ++ [{ ptr := m.heapNext, window := W, settings := settings }]
        heapNext := m.heapNext + 1
        trace := m.trace ++
          [ Effect.enterDockWindow W,
            Effect.newTrayItem { ptr := m.heapNext, window := W, settings := settings },
            Effect.showWindow { ptr := m.heapNext, window := W, settings := settings } ] } := by
  have hd : isWindowDocked (m.emit (Effect.enterDockWindow W)) W = false := by
    simpa [isWindowDocked, dockedWindows, TrayItemManager.emit] using h
  unfold dockWindow
  simp only [hd]
  simp [TrayItemManager.emit]

theorem dockWindow_attempt (m : TrayItemManager) (W : Window) (settings : TrayItemArgs) :
    ∃ tr, (dockWindow m W settings).trace = m.trace ++ Effect.enterDockWindow W :: tr ∧
      enqueues tr = 0 ∧ dockAttempts tr = [] := by
  by_cases h : W ∈ dockedWindows m
  · rw [dockWindow_docked m W settings h]
    exact ⟨[Effect.messageBox
      "This window is already docked.\nClick on system tray icon to toggle docking.",
      Effect.enterCheckCount], rfl, rfl, rfl⟩
  · rw [dockWindow_fresh m W settings h]
    exact ⟨[Effect.newTrayItem { ptr := m.heapNext, window := W, settings := settings },
      Effect.showWindow { ptr := m.heapNext, window := W, settings := settings }], rfl, rfl, rfl⟩

theorem elim_ite {α β : Type} (f : α → Prop) (g : β → Prop) (c : Prop) [Decidable c]
    (a b : α ⊕ β) (ha : Sum.elim f g a) (hb : Sum.elim f g b) :
    Sum.elim f g (if c then a else b) := by
  split_ifs
  · exact ha
  · exact hb

theorem elim_dite {α β : Type} (f : α → Prop) (g : β → Prop) (c : Prop) [Decidable c]
    (a b : α ⊕ β) (ha : c → Sum.elim f g a) (hb : ¬ c → Sum.elim f g b) :
    Sum.elim f g (if c then a else b) := by
  split_ifs with h
  · exact ha h
  · exact hb h

theorem option_elim (env : Env) (m : TrayItemManager) (l : Locals) (option : Char)
    (optarg : String) :
    Sum.elim (fun m' => Unresolved m m' 1) (fun _ => True)
      (processCommand.option env m l option optarg) := by
  unfold processCommand.option
  dsimp only
  repeat' first
    | exact trivial
    | exact Unresolved.checkCount m
    | exact Unresolved.notice_check m _
    | apply elim_ite

theorem option_returns (env : Env) (m : TrayItemManager) (l : Locals) (option : Char)
    (optarg : String) (m' : TrayItemManager)
    (h : processCommand.option env m l option optarg = Sum.inl m') : Unresolved m m' 1 := by
  have h1 := option_elim env m l option optarg
  rw [h] at h1
  exact h1

theorem options_returns (env : Env) (m : TrayItemManager) (l : Locals)
    (opts : List (Char × String)) (m' : TrayItemManager)
    (h : processCommand.options env m l opts = Sum.inl m') : Unresolved m m' 1 := by
  induction opts generalizing l with
  | nil => simp [processCommand.options] at h
  | cons o opts ih =>
    obtain ⟨option, optarg⟩ := o
    unfold processCommand.options at h
    cases hs : processCommand.option env m l option optarg with
    | inl m1 =>
      rw [hs] at h
      cases h
      exact option_returns env m l option optarg _ hs
    | inr l1 =>
      rw [hs] at h
      exact ih l1 h

theorem Unresolved.setGrab {a b : TrayItemManager} {n : Nat} (h : Unresolved a b n)
    (g : GrabInfo) : Unresolved a { b with m_grabInfo := g } n := by
  obtain ⟨tr, e, q, d, r, s, c⟩ := h
  exact ⟨tr, e, q, d, r, s, c⟩

theorem userSelectWindow_unresolved (env : Env) (m : TrayItemManager) (checkNormality : Bool) :
    Unresolved m (userSelectWindow env m checkNormality).1
      (if (userSelectWindow env m checkNormality).2 = 0 then 1 else 0) := by
  have base : ∀ g : GrabInfo, Unresolved m
      { (m.emit (Effect.stdout
          "Select the application/window to dock with the left mouse button.")).emit
          (Effect.stdout "Click any other mouse button to abort.") with m_grabInfo := g } 0 :=
    fun g => ((Unresolved.stdout m _).trans (Unresolved.stdout _ _)).setGrab g
  unfold userSelectWindow
  dsimp only
  generalize env.selectWindow _ = sel
  obtain ⟨window, error, grabInfo⟩ := sel
  dsimp only
  have hb := base grabInfo
  split
  · split
    · simpa using (hb.trans (Unresolved.messageBox _ error)).trans (Unresolved.checkCount _)
    · simpa using hb.trans (Unresolved.checkCount _)
  · rename_i hw
    split
    · split
      · simpa using (hb.trans (Unresolved.messageBox _ _)).trans (Unresolved.checkCount _)
      · simpa [hw] using hb.trans (Unresolved.messageBox _ _)
    · simpa [hw] using hb

theorem find_unresolved (env : Env) (m : TrayItemManager) (l : Locals) :
    ∃ n, Unresolved m (processCommand.find env m l).1 n := by
  unfold processCommand.find
  split
  · split
    · exact ⟨0, Unresolved.refl m⟩
    · exact ⟨_, userSelectWindow_unresolved env m l.checkNormality⟩
  · exact ⟨0, Unresolved.refl m⟩

theorem resolve_scan (env : Env) (m : TrayItemManager) (l : Locals) (rest : List String)
    (h : rest ≠ [] ∨ l.windowNamePattern ≠ "") :
    processCommand.resolve env m l rest =
      { m with
        m_scanner := m.m_scanner.enqueue (processCommand.request env l rest)
        trace := m.trace ++
          [Effect.enqueue (processCommand.request env l rest), Effect.enterCheckCount] } := by
  unfold processCommand.resolve
  rw [if_pos h]
  simp [checkCount_eq, TrayItemManager.emit, Scanner.enqueue, Scanner.isRunning]

theorem resolve_kinds (env : Env) (m : TrayItemManager) (l : Locals) (rest : List String) :
    ∃ tr, (processCommand.resolve env m l rest).trace = m.trace ++ tr ∧
      (rest ≠ [] ∨ l.windowNamePattern ≠ "" → enqueues tr = 1 ∧ dockAttempts tr = []) ∧
      (¬ (rest ≠ [] ∨ l.windowNamePattern ≠ "") → (processCommand.find env m l).2 ≠ 0 →
        dockAttempts tr = [(processCommand.find env m l).2] ∧ enqueues tr = 0) ∧
      (¬ (rest ≠ [] ∨ l.windowNamePattern ≠ "") → (processCommand.find env m l).2 = 0 →
        NoDock tr m.m_trayItems (processCommand.resolve env m l rest).m_trayItems) := by
  by_cases hscan : rest ≠ [] ∨ l.windowNamePattern ≠ ""
  · rw [resolve_scan env m l rest hscan]
    exact ⟨_, rfl, fun _ => ⟨rfl, rfl⟩, fun h => absurd hscan h, fun h => absurd hscan h⟩
  · obtain ⟨n, tr, htr, hq, hd, hreg, _, _⟩ := find_unresolved env m l
    by_cases hw : (processCommand.find env m l).2 ≠ 0
    · have hres : processCommand.resolve env m l rest =
          dockWindow (processCommand.find env m l).1 (processCommand.find env m l).2
            l.settings := by
        unfold processCommand.resolve
        rw [if_neg hscan]
        dsimp only
        rw [if_pos hw]
      obtain ⟨tr2, htr2, hq2, hd2⟩ := dockWindow_attempt (processCommand.find env m l).1
        (processCommand.find env m l).2 l.settings
      rw [hres]
      refine ⟨tr ++ Effect.enterDockWindow (processCommand.find env m l).2 :: tr2, ?_,
        fun h => absurd h hscan, fun _ _ => ⟨?_, ?_⟩, fun _ h => absurd h hw⟩
      · rw [htr2, htr, List.append_assoc]
      · simp [dockAttempts_append, dockAttempts, hd, hd2]
      · simp [enqueues_append, enqueues, hq, hq2]
    · have hres : processCommand.resolve env m l rest =
          checkCount (processCommand.find env m l).1 := by
        unfold processCommand.resolve
        rw [if_neg hscan]
        dsimp only
        rw [if_neg hw]
      obtain ⟨tr2, htr2, hq2, hd2, hreg2, _, hc2⟩ :=
        Unresolved.checkCount (processCommand.find env m l).1
      rw [hres]
      refine ⟨tr ++ tr2, ?_, fun h => absurd h hscan, fun _ h => absurd h hw,
        fun _ _ => ⟨?_, ?_, ?_, ?_⟩⟩
      · rw [htr2, htr, List.append_assoc]
      · simp [enqueues_append, hq, hq2]
      · simp [dockAttempts_append, hd, hd2]
      · rw [hreg2, hreg]
      · unfold checks at *
        rw [List.count_append]
        omega

/-- One pass through the option switch returns exactly on the four
user-input errors, and otherwise updates window, pid, normality flag and
pattern text as the option says. -/
theorem option_resolves (env : Env) (m : TrayItemManager) (l : Locals) (option : Char)
    (optarg : String) :
    Sum.elim (fun m' => BadOption env (option, optarg) ∧ Unresolved m m' 1)
      (fun l' : Locals => ¬ BadOption env (option, optarg) ∧
        l'.window = stepWindow env l.window (option, optarg) ∧
        l'.pid = stepPid env l.pid (option, optarg) ∧
        l'.checkNormality = stepNormality l.checkNormality (option, optarg) ∧
        l'.windowNamePattern = stepText l.windowNamePattern (option, optarg))
      (processCommand.option env m l option optarg) := by
  unfold processCommand.option
  dsimp only
  repeat' first
    | intro _
    | apply elim_dite
    | exact ⟨by simp_all [BadOption, UnknownOption, InvalidPatternMode, NoFocusedWindow,
        InvalidWindowId, windowOfArg], Unresolved.checkCount m⟩
    | exact ⟨by simp_all [BadOption, UnknownOption, InvalidPatternMode, NoFocusedWindow,
        InvalidWindowId, windowOfArg], Unresolved.notice_check m _⟩
    | simp_all [BadOption, UnknownOption, InvalidPatternMode, NoFocusedWindow,
        InvalidWindowId, windowOfArg, stepWindow, stepPid, stepNormality, stepText]

/-- The option loop returns exactly when some option is a user-input error,
and otherwise ends with the window, pid, normality flag and pattern text the
options give. -/
theorem options_resolves (env : Env) (m : TrayItemManager) (l : Locals)
    (opts : List (Char × String)) :
    Sum.elim (fun m' => (∃ o ∈ opts, BadOption env o) ∧ Unresolved m m' 1)
      (fun l' : Locals => (¬ ∃ o ∈ opts, BadOption env o) ∧
        l'.window = opts.foldl (stepWindow env) l.window ∧
        l'.pid = opts.foldl (stepPid env) l.pid ∧
        l'.checkNormality = opts.foldl stepNormality l.checkNormality ∧
        l'.windowNamePattern = opts.foldl stepText l.windowNamePattern)
      (processCommand.options env m l opts) := by
  induction opts generalizing l with
  | nil => simp [processCommand.options]
  | cons o opts ih =>
    obtain ⟨option, optarg⟩ := o
    unfold processCommand.options
    have ho := option_resolves env m l option optarg
    cases hs : processCommand.option env m l option optarg with
    | inl m1 =>
      rw [hs] at ho
      exact ⟨⟨(option, optarg), List.mem_cons_self _ _, ho.1⟩, ho.2⟩
    | inr l1 =>
      rw [hs] at ho
      obtain ⟨hb, h1, h2, h3, h4⟩ := ho
      have hi := ih l1
      dsimp only
      cases hr : processCommand.options env m l1 opts with
      | inl m2 =>
        rw [hr] at hi
        obtain ⟨⟨o', ho', hbad⟩, hu⟩ := hi
        exact ⟨⟨o', List.mem_cons_of_mem _ ho', hbad⟩, hu⟩
      | inr l2 =>
        rw [hr] at hi
        obtain ⟨hn, g1, g2, g3, g4⟩ := hi
        refine ⟨?_, ?_, ?_, ?_, ?_⟩
        · rintro ⟨o', ho', hbad⟩
          rcases List.mem_cons.mp ho' with rfl | hmem
          · exact hb hbad
          · exact hn ⟨o', hmem, hbad⟩
        · rw [List.foldl_cons, ← h1]; exact g1
        · rw [List.foldl_cons, ← h2]; exact g2
        · rw [List.foldl_cons, ← h3]; exact g3
        · rw [List.foldl_cons, ← h4]; exact g4

/-- The window `userSelectWindow` returns is the one the selection ends
with. -/
theorem userSelectWindow_window (env : Env) (m : TrayItemManager) (checkNormality : Bool) :
    (userSelectWindow env m checkNormality).2 = userSelection env m.m_grabInfo checkNormality := by
  unfold userSelectWindow userSelection
  simp only [TrayItemManager.emit]
  by_cases h0 : (env.selectWindow m.m_grabInfo).1 = 0
  · simp [h0]
  · cases checkNormality <;> cases hn : env.isNormalWindow (env.selectWindow m.m_grabInfo).1 <;>
      cases ha : env.warningAbort <;> simp [h0, hn, ha]

/-- The window the lookup block ends with is the requested window. -/
theorem find_window (env : Env) (m : TrayItemManager) (l : Locals) :
    (processCommand.find env m l).2 =
      if l.window ≠ 0 then l.window
      else if l.pid ≠ 0 then env.pidToWid l.checkNormality l.pid (dockedWindows m)
      else userSelection env m.m_grabInfo l.checkNormality := by
  unfold processCommand.find
  by_cases hw : l.window = 0
  · by_cases hp : l.pid = 0
    · simp [hw, hp, userSelectWindow_window]
    · simp [hw, hp]
  · simp [hw]

/-- The named situations are those in which the resolution is "no window". -/
theorem resolution_noWindow (env : Env) (m : TrayItemManager) (args : List String)
    (h : NoWindow env m args) : resolution env m args = Resolution.noWindow := by
  unfold resolution
  by_cases hbad : ∃ o ∈ (env.getopt args).1, BadOption env o
  · rw [if_pos hbad]
  · rw [if_neg hbad]
    rcases h with ⟨o, ho, hb⟩ | ⟨o, ho, hb⟩ | ⟨o, ho, hb⟩ | ⟨o, ho, hb⟩ |
      ⟨h1, h2, h3, h4, h5⟩ | ⟨h1, h2, h3, h4, h5⟩
    · exact absurd ⟨o, ho, Or.inl hb⟩ hbad
    · exact absurd ⟨o, ho, Or.inr (Or.inl hb)⟩ hbad
    · exact absurd ⟨o, ho, Or.inr (Or.inr (Or.inl hb))⟩ hbad
    · exact absurd ⟨o, ho, Or.inr (Or.inr (Or.inr hb))⟩ hbad
    · simp [h1, h2, requestedWindow, h3, h4, h5]
    · simp [h1, h2, requestedWindow, h3, h4, h5]

/-- C6: every `processCommand` invocation takes exactly one resolution path,
the one the specification names for its options. The stretch of trace it adds
hands exactly one scan request to the scanner and contains no dock attempt
when a command or a name pattern is present; contains exactly one dock
attempt, on the requested window, which is not 0, and no scan request when a
window is identified (by id, as the active window, by pid, or by interactive
selection); and contains neither, with the registry unchanged and
`checkCount` entered at least once, when resolution yields no window. The
last is so in each of the named situations: an unknown option, an invalid
pattern mode, no focused window, an invalid window id, a pid resolving to
nothing, a selection aborted. -/
theorem processCommand_one_path (env : Env) (m : TrayItemManager) (args : List String) :
    ∃ tr, (processCommand env m args).trace = m.trace ++ tr ∧
      OnePath tr m.m_trayItems (processCommand env m args).m_trayItems ∧
      Resolves (resolution env m args) tr m.m_trayItems (processCommand env m args).m_trayItems ∧
      (NoWindow env m args → NoDock tr m.m_trayItems (processCommand env m args).m_trayItems) := by
  have key : ∃ tr, (processCommand env m args).trace = m.trace ++ tr ∧
      Resolves (resolution env m args) tr m.m_trayItems
        (processCommand env m args).m_trayItems := by
    have ho := options_resolves env m (processCommand.locals m) (env.getopt args).1
    unfold processCommand resolution
    dsimp only
    cases h : processCommand.options env m (processCommand.locals m) (env.getopt args).1 with
    | inl m' =>
      rw [h] at ho
      obtain ⟨hbad, tr, htr, hq, hd, hreg, _, hc⟩ := ho
      rw [if_pos hbad]
      exact ⟨tr, htr, hq, hd, hreg, hc⟩
    | inr l =>
      rw [h] at ho
      obtain ⟨hbad, h1, h2, h3, h4⟩ := ho
      have hw : (processCommand.find env m l).2 = requestedWindow env m (env.getopt args).1 := by
        rw [find_window, h1, h2, h3]
        rfl
      have ht : l.windowNamePattern = selectedText (env.getopt args).1 := h4
      obtain ⟨tr, htr, hk1, hk2, hk3⟩ := resolve_kinds env m l (env.getopt args).2
      rw [hw, ht] at hk2 hk3
      rw [ht] at hk1
      refine ⟨tr, htr, ?_⟩
      rw [if_neg hbad]
      by_cases hscan : (env.getopt args).2 ≠ [] ∨ selectedText (env.getopt args).1 ≠ ""
      · rw [if_pos hscan]
        exact hk1 hscan
      · rw [if_neg hscan]
        by_cases hreq : requestedWindow env m (env.getopt args).1 ≠ 0
        · rw [if_pos hreq]
          exact ⟨hreq, hk2 hscan hreq⟩
        · rw [if_neg hreq]
          exact hk3 hscan (not_not.mp hreq)
  obtain ⟨tr, htr, hres⟩ := key
  refine ⟨tr, htr, ?_, hres, ?_⟩
  · cases hr : resolution env m args with
    | scan =>
      rw [hr] at hres
      exact Or.inl hres
    | dock w =>
      rw [hr] at hres
      obtain ⟨hw, hd, hq⟩ := hres
      refine Or.inr (Or.inl ⟨by simp [hd], ?_, hq⟩)
      simpa [hd] using Ne.symm hw
    | noWindow =>
      rw [hr] at hres
      exact Or.inr (Or.inr hres)
  · intro hno
    rw [resolution_noWindow env m args hno] at hres
    exact hres

/-- The three paths on the example environment: `-nxterm` enqueues a scan,
`-w5` docks window 5, and `-ex` (an invalid pattern mode) does neither. -/
theorem processCommand_paths_examples :
    (processCommand exampleEnv (TrayItemManager.construct 0 0) ["kdocker", "-nxterm"]).trace =
      [ Effect.enqueue
          { command := "", arguments := [],
            settings := (TrayItemManager.construct 0 0).m_initArgs, maxTime := 5,
            checkNormality := true,
            windowName :=
              { pattern := "xterm", patternOptions := PatternOptions.CaseInsensitiveOption } },
        Effect.enterCheckCount ] ∧
    dockAttempts (processCommand exampleEnv (TrayItemManager.construct 0 0) ["kdocker", "-w5"]).trace =
      [5] ∧
    (processCommand exampleEnv (TrayItemManager.construct 0 0) ["kdocker", "-ex"]).trace =
      [ Effect.messageBox "Invalid name matting option: x.\n\nChoices are: n, r, w.",
        Effect.enterCheckCount, Effect.quit ] := by
  decide

/-- The resolution the specification names on the example environment: a
scan for `-nxterm`, a dock of window 5 for `-w5` and of the active window 7
for `-f`, and no window for an invalid pattern mode, an unknown option, an
invalid window id, a pid that resolves to nothing and an aborted selection. -/
theorem resolution_examples :
    resolution exampleEnv exampleRegistry ["kdocker", "-nxterm"] = Resolution.scan ∧
    resolution exampleEnv exampleRegistry ["kdocker", "-w5"] = Resolution.dock 5 ∧
    resolution exampleEnv exampleRegistry ["kdocker", "-f"] = Resolution.dock 7 ∧
    resolution exampleEnv exampleRegistry ["kdocker", "-ex"] = Resolution.noWindow ∧
    resolution exampleEnv exampleRegistry ["kdocker", "-?"] = Resolution.noWindow ∧
    resolution { exampleEnv with toInt := fun _ => 6 } exampleRegistry ["kdocker", "-w6"] =
      Resolution.noWindow ∧
    resolution exampleEnv exampleRegistry ["kdocker", "-x12"] = Resolution.noWindow ∧
    resolution exampleEnv exampleRegistry ["kdocker"] = Resolution.noWindow := by
  decide

theorem processCommand_one_path_witness :
    ∃ tr, (processCommand exampleEnv exampleRegistry ["kdocker", "-x12"]).trace =
        exampleRegistry.trace ++ tr ∧
      OnePath tr exampleRegistry.m_trayItems
        (processCommand exampleEnv exampleRegistry ["kdocker", "-x12"]).m_trayItems ∧
      Resolves Resolution.noWindow tr exampleRegistry.m_trayItems
        (processCommand exampleEnv exampleRegistry ["kdocker", "-x12"]).m_trayItems ∧
      NoDock tr exampleRegistry.m_trayItems
        (processCommand exampleEnv exampleRegistry ["kdocker", "-x12"]).m_trayItems := by
  obtain ⟨tr, h1, h2, h3, h4⟩ := processCommand_one_path exampleEnv exampleRegistry ["kdocker", "-x12"]
  have hr : resolution exampleEnv exampleRegistry ["kdocker", "-x12"] = Resolution.noWindow := by decide
  rw [hr] at h3
  exact ⟨tr, h1, h2, h3, h4 (by decide)⟩

/-! ## Lemmas on the pattern model -/


namespace Qt


theorem stepNormal_word (c : Char) (h : isWord c = true) :
    stepNormal c = some (Scan.normal, [Token.atom (Regex.char c)]) := by
  have h1 : c ≠ '\\' := by rintro rfl; revert h; decide
  have h2 : c ≠ '(' := by rintro rfl; revert h; decide
  have h3 : c ≠ '[' := by rintro rfl; revert h; decide
  have h4 : c ≠ ')' := by rintro rfl; revert h; decide
  have h5 : c ≠ '|' := by rintro rfl; revert h; decide
  have h6 : c ≠ '*' := by rintro rfl; revert h; decide
  have h7 : c ≠ '+' := by rintro rfl; revert h; decide
  have h8 : c ≠ '?' := by rintro rfl; revert h; decide
  have h9 : c ≠ '.' := by rintro rfl; revert h; decide
  have h10 : c ≠ '^' := by rintro rfl; revert h; decide
  have h11 : c ≠ '$' := by rintro rfl; revert h; decide
  have h12 : c ≠ '{' := by rintro rfl; revert h; decide
  have h13 : c ≠ '}' := by rintro rfl; revert h; decide
  simp [stepNormal, h1, h2, h3, h4, h5, h6, h7, h8, h9, h10, h11, h12, h13]

theorem step_escape_other (c : Char) (h : isWord c = false) (h0 : c ≠ Char.ofNat 0) :
    step Scan.escape c = some (Scan.normal, [Token.atom (Regex.char c)]) := by
  have h1 : c ≠ 'A' := by rintro rfl; revert h; decide
  have h2 : c ≠ 'z' := by rintro rfl; revert h; decide
  simp [step, h1, h2, h, h0]

theorem tokens_escapeChars (cs : List Char) (h : Char.ofNat 0 ∉ cs) :
    tokens Scan.normal (escapeChars cs) =
      some (cs.map (fun c => Token.atom (Regex.char c))) := by
  induction cs with
  | nil => rfl
  | cons c cs ih =>
    have hc : c ≠ Char.ofNat 0 := fun e => h (by simp [e])
    have hcs : Char.ofNat 0 ∉ cs := fun e => h (by simp [e])
    unfold escapeChars
    rw [if_neg hc]
    cases hw : isWord c with
    | true =>
      simp only [if_true]
      rw [tokens, step, stepNormal_word c hw]
      simp [ih hcs]
    | false =>
      simp only [Bool.false_eq_true, if_false]
      rw [tokens]
      have hs : step Scan.normal '\\' = some (Scan.escape, []) := by decide
      rw [hs]
      simp only
      rw [tokens, step_escape_other c hw hc]
      simp [ih hcs]


theorem parse_atoms (as : List Regex) (ts : List Token) (f : Frame) (stack : List Frame) :
    parse (as.map Token.atom ++ ts) f stack = parse ts (as.foldl Frame.push f) stack := by
  induction as generalizing f with
  | nil => rfl
  | cons a as ih => simp [parse, ih]

theorem seq_foldl_push (as : List Regex) (f : Frame) :
    (as.foldl Frame.push f).seq = as.foldl Regex.cat f.seq ∧
    (as.foldl Frame.push f).alts = f.alts := by
  induction as generalizing f with
  | nil => exact ⟨rfl, rfl⟩
  | cons a as ih =>
    obtain ⟨h1, h2⟩ := ih (f.push a)
    simp only [List.foldl_cons, h1, h2]
    exact ⟨rfl, rfl⟩

/-- The pattern `escape` makes of a text without NUL compiles to the
concatenation of its characters. -/
theorem compile_escape (text : String) (h : Char.ofNat 0 ∉ text.data) :
    compile (escape text) =
      some ((text.data.map Regex.char).foldl Regex.cat Regex.empty) := by
  unfold compile escape
  simp only [tokens_escapeChars text.data h]
  have hp := parse_atoms (text.data.map Regex.char) [] Frame.start []
  simp only [List.map_map, List.append_nil] at hp
  have hm : (List.map (fun c => Token.atom (Regex.char c)) text.data) =
      List.map (Token.atom ∘ Regex.char) text.data := rfl
  rw [hm, hp, parse]
  obtain ⟨h1, h2⟩ := seq_foldl_push (text.data.map Regex.char) Frame.start
  simp only [Frame.close, h2, h1]
  rfl

theorem spans_cat (caseless : Bool) (subject : List Char) (r s : Regex) (i j : Nat) :
    spans caseless subject (Regex.cat r s) i j = true ↔
      ∃ k, i ≤ k ∧ k ≤ j ∧ spans caseless subject r i k = true ∧
        spans caseless subject s k j = true := by
  simp only [spans, List.any_eq_true, List.mem_range'_1, Bool.and_eq_true]
  constructor
  · rintro ⟨k, ⟨h1, h2⟩, h3, h4⟩
    exact ⟨k, h1, by omega, h3, h4⟩
  · rintro ⟨k, h1, h2, h3, h4⟩
    exact ⟨k, ⟨h1, by omega⟩, h3, h4⟩

theorem spans_char (caseless : Bool) (subject : List Char) (c : Char) (i j : Nat) :
    spans caseless subject (Regex.char c) i j = true ↔
      j = i + 1 ∧ ∃ x xs, subject.drop i = x :: xs ∧ fold caseless x = fold caseless c := by
  simp only [spans, Bool.and_eq_true, beq_iff_eq]
  constructor
  · rintro ⟨h1, h2⟩
    refine ⟨h1, ?_⟩
    cases hg : subject[i]? with
    | none => simp [hg] at h2
    | some x =>
      simp only [hg, Option.any_some, beq_iff_eq] at h2
      obtain ⟨hlt, hx⟩ := List.getElem?_eq_some_iff.mp hg
      refine ⟨x, subject.drop (i + 1), ?_, h2⟩
      rw [List.drop_eq_getElem_cons hlt, hx]
  · rintro ⟨h1, x, xs, h2, h3⟩
    refine ⟨h1, ?_⟩
    have hg : subject[i]? = some x := by
      have := congrArg List.head? h2
      simpa [List.head?_drop] using this
    simp [hg, h3]

theorem startsWith_length (caseless : Bool) (text subject : List Char)
    (h : startsWith caseless text subject = true) : text.length ≤ subject.length := by
  induction text generalizing subject with
  | nil => simp
  | cons c text ih =>
    cases subject with
    | nil => simp [startsWith] at h
    | cons x subject =>
      simp only [startsWith, Bool.and_eq_true] at h
      have := ih subject h.2
      simp only [List.length_cons]
      omega

/-- The concatenation of the characters of `text` after `r` spans `i` to
`j` exactly when `r` spans `i` to some `k` and the text stands at `k` and
ends at `j`. -/
theorem spans_literal (caseless : Bool) (subject : List Char) (text : List Char) (r : Regex)
    (hr : ∀ i k, spans caseless subject r i k = true → i ≤ k) (i j : Nat) :
    spans caseless subject ((text.map Regex.char).foldl Regex.cat r) i j = true ↔
      ∃ k, spans caseless subject r i k = true ∧ j = k + text.length ∧
        startsWith caseless text (subject.drop k) = true := by
  induction text generalizing r j with
  | nil => simp [startsWith]
  | cons c text ih =>
    have hr' : ∀ i k, spans caseless subject (Regex.cat r (Regex.char c)) i k = true → i ≤ k := by
      intro i k h
      obtain ⟨k', h1, h2, _, _⟩ := (spans_cat caseless subject r (Regex.char c) i k).mp h
      omega
    simp only [List.map_cons, List.foldl_cons]
    rw [ih (Regex.cat r (Regex.char c)) hr']
    constructor
    · rintro ⟨k', h1, h2, h3⟩
      obtain ⟨k, _, _, h4, h5⟩ := (spans_cat caseless subject r (Regex.char c) i k').mp h1
      obtain ⟨h6, x, xs, h7, h8⟩ := (spans_char caseless subject c k k').mp h5
      refine ⟨k, h4, by simp only [List.length_cons]; omega, ?_⟩
      rw [h7]
      simp only [startsWith, Bool.and_eq_true, beq_iff_eq]
      refine ⟨h8, ?_⟩
      have hd : subject.drop k' = xs := by
        rw [h6, ← List.drop_drop, h7]
        rfl
      rw [← hd]
      exact h3
    · rintro ⟨k, h1, h2, h3⟩
      cases hd : subject.drop k with
      | nil => simp [hd, startsWith] at h3
      | cons x xs =>
        rw [hd] at h3
        simp only [startsWith, Bool.and_eq_true, beq_iff_eq] at h3
        have hd' : subject.drop (k + 1) = xs := by
          rw [← List.drop_drop, hd]
          rfl
        refine ⟨k + 1, ?_, by simp only [List.length_cons] at h2; omega, ?_⟩
        · rw [spans_cat]
          refine ⟨k, hr i k h1, by omega, h1, ?_⟩
          rw [spans_char]
          exact ⟨rfl, x, xs, hd, h3.1⟩
        · rw [hd']
          exact h3.2

theorem matchesSomewhere_literal (caseless : Bool) (subject text : List Char) :
    matchesSomewhere caseless subject ((text.map Regex.char).foldl Regex.cat Regex.empty) =
      occurs caseless text subject := by
  have hr : ∀ i k, spans caseless subject Regex.empty i k = true → i ≤ k := by
    intro i k h
    simp only [spans, beq_iff_eq] at h
    omega
  rw [Bool.eq_iff_iff]
  simp only [matchesSomewhere, occurs, List.any_eq_true, List.mem_range, List.mem_range'_1,
    spans_literal caseless subject text Regex.empty hr]
  constructor
  · rintro ⟨i, hi, j, _, k, h1, _, h3⟩
    simp only [spans, beq_iff_eq] at h1
    subst h1
    exact ⟨i, hi, h3⟩
  · rintro ⟨i, hi, h3⟩
    have hlen := startsWith_length caseless text (subject.drop i) h3
    simp only [List.length_drop] at hlen
    refine ⟨i, hi, i + text.length, ⟨by omega, by omega⟩, i, ?_, rfl, h3⟩
    simp [spans]

/-- A pattern made by `escape` from a text without NUL matches a subject
exactly when the text occurs in it. -/
theorem hasMatch_escape (text subject : String) (options : PatternOptions)
    (h : Char.ofNat 0 ∉ text.data) :
    hasMatch { pattern := escape text, patternOptions := options } subject =
      some (occurs (options == PatternOptions.CaseInsensitiveOption) text.data subject.data) := by
  unfold hasMatch
  simp only [compile_escape text h, Option.map_some', matchesSomewhere_literal]

end Qt

/-! ## The pattern handed to the scanner -/

theorem option_tracks (env : Env) (m : TrayItemManager) (l : Locals) (option : Char)
    (optarg : String) :
    Sum.elim (fun _ => True)
      (fun l' : Locals => l'.patType = stepMode l.patType (option, optarg) ∧
        l'.windowNamePattern = stepText l.windowNamePattern (option, optarg) ∧
        l'.patternOptions = stepOptions l.patternOptions (option, optarg))
      (processCommand.option env m l option optarg) := by
  unfold processCommand.option
  dsimp only
  repeat' first
    | exact trivial
    | intro _
    | apply elim_dite
    | simp_all [stepMode, stepText, stepOptions]

theorem options_tracks (env : Env) (m : TrayItemManager) (l l' : Locals)
    (opts : List (Char × String))
    (h : processCommand.options env m l opts = Sum.inr l') :
    l'.patType = opts.foldl stepMode l.patType ∧
    l'.windowNamePattern = opts.foldl stepText l.windowNamePattern ∧
    l'.patternOptions = opts.foldl stepOptions l.patternOptions := by
  induction opts generalizing l with
  | nil =>
    simp only [processCommand.options, Sum.inr.injEq] at h
    subst h
    exact ⟨rfl, rfl, rfl⟩
  | cons o opts ih =>
    obtain ⟨option, optarg⟩ := o
    unfold processCommand.options at h
    have ht := option_tracks env m l option optarg
    cases hs : processCommand.option env m l option optarg with
    | inl m1 =>
      rw [hs] at h
      cases h
    | inr l1 =>
      rw [hs] at h ht
      obtain ⟨h1, h2, h3⟩ := ih l1 h
      simp only [Sum.elim_inr] at ht
      obtain ⟨t1, t2, t3⟩ := ht
      simp only [List.foldl_cons]
      rw [← t1, ← t2, ← t3]
      exact ⟨h1, h2, h3⟩

/-- C10: the name pattern `processCommand` hands to the scanner is compiled
according to the selected mode. When the option loop runs to its end and
there is a command or a name pattern, the one request enqueued carries the
pattern text escaped by `QRegularExpression::escape` in literal mode (the
mode when no `-e` option is given, and with `-e n`), unchanged in regex mode
(`-e r`), and translated by `wildcardToRegularExpression` in wildcard mode
(`-e w`). In the model of these Qt functions, an escaped text matches a title
exactly when the text itself occurs in the title, so `a.b` matches `a.b` and
not `axb`; the regular expression `a.b` matches `axb`; and the wildcard `a*b`
matches `axyzb`. -/
theorem processCommand_pattern_modes (env : Env) (m : TrayItemManager) (args : List String)
    (l : Locals)
    (hloop : processCommand.options env m (processCommand.locals m) (env.getopt args).1 =
      Sum.inr l)
    (hscan : (env.getopt args).2 ≠ [] ∨ selectedText (env.getopt args).1 ≠ "") :
    (processCommand env m args =
        { m with
          m_scanner := m.m_scanner.enqueue (processCommand.request env l (env.getopt args).2)
          trace := m.trace ++
            [ Effect.enqueue (processCommand.request env l (env.getopt args).2),
              Effect.enterCheckCount ] } ∧
      (processCommand.request env l (env.getopt args).2).windowName =
        { pattern := compiled env (selectedMode (env.getopt args).1)
            (selectedText (env.getopt args).1)
          patternOptions := selectedOptions (env.getopt args).1 }) ∧
    (selectedMode [] = PatternType.Normal ∧
      ∀ text, compiled env PatternType.Normal text = env.escape text ∧
        compiled env PatternType.Regex text = text ∧
        compiled env PatternType.Wildcard text = env.wildcardToRegularExpression text) ∧
    (∀ (text title : String) (options : PatternOptions), Char.ofNat 0 ∉ text.data →
      Qt.hasMatch { pattern := Qt.escape text, patternOptions := options } title =
        some (Qt.occurs (options == PatternOptions.CaseInsensitiveOption) text.data
          title.data)) ∧
    (∀ options : PatternOptions,
      Qt.hasMatch { pattern := Qt.escape "a.b", patternOptions := options } "a.b" = some true ∧
      Qt.hasMatch { pattern := Qt.escape "a.b", patternOptions := options } "axb" = some false ∧
      Qt.hasMatch { pattern := "a.b", patternOptions := options } "axb" = some true ∧
      Qt.hasMatch { pattern := Qt.wildcardToRegularExpression "a*b", patternOptions := options }
        "axyzb" = some true) := by
  obtain ⟨h1, h2, h3⟩ := options_tracks env m (processCommand.locals m) l _ hloop
  have hscan' : (env.getopt args).2 ≠ [] ∨ l.windowNamePattern ≠ "" := by
    rw [h2]
    exact hscan
  refine ⟨⟨?_, ?_⟩, ⟨rfl, fun _ => ⟨rfl, rfl, rfl⟩⟩, ?_, ?_⟩
  · unfold processCommand
    dsimp only
    rw [hloop]
    exact resolve_scan env m l _ hscan'
  · unfold processCommand.request processCommand.windowName compiled
    simp only [h1, h2, h3]
    rfl
  · intro text title options h
    exact Qt.hasMatch_escape text title options h
  · intro options
    cases options <;> decide

theorem processCommand_pattern_modes_witness :
    (processCommand.request exampleEnv exampleLocals
        (exampleEnv.getopt ["kdocker", "-ew", "-na*b"]).2).windowName =
      { pattern := compiled exampleEnv (selectedMode (exampleEnv.getopt ["kdocker", "-ew", "-na*b"]).1)
          (selectedText (exampleEnv.getopt ["kdocker", "-ew", "-na*b"]).1)
        patternOptions := selectedOptions (exampleEnv.getopt ["kdocker", "-ew", "-na*b"]).1 } ∧
    compiled exampleEnv (selectedMode (exampleEnv.getopt ["kdocker", "-ew", "-na*b"]).1)
        (selectedText (exampleEnv.getopt ["kdocker", "-ew", "-na*b"]).1) = "\\A(?:a[^/]*b)\\z" :=
  ⟨(processCommand_pattern_modes exampleEnv exampleRegistry ["kdocker", "-ew", "-na*b"] exampleLocals
      (by decide) (by decide)).1.2, by decide⟩

end KDocker
